import Mathlib

/-!
Shallow embedding of the poker engine in `poker_api/services/game_service.py`
(class `GameService`) together with the seat-lifecycle methods of
`poker_api/models.py`.  Django `Decimal` amounts are modelled by `ℚ`
(addition, subtraction, `min` and comparisons coincide; the only division,
the split-pot share in `_showdown`, is exact here).  Database rows become
fields of a `GameState` record; a `.save()` of a fetched row becomes an
update of the first list entry with the row's (unique) seat position;
querysets become list filters.  `GameAction.timestamp` ordering is modelled
by list order (newest first) and the "actions since the last hand history"
filter by a hand tag equal to `Game.hand_count` at recording time, which
changes exactly when a hand history row is written.
-/

namespace PokerModel

abbrev Money := ℚ

/-- Game lifecycle status (`Game.GAME_STATUS_CHOICES`). -/
inductive GStatus
  | WAITING
  | PLAYING
  | FINISHED
deriving DecidableEq

/-- Hand phase (`Game.GAME_PHASE_CHOICES`); the database column is nullable,
so the game record stores an `Option Phase`. -/
inductive Phase
  | PREFLOP
  | FLOP
  | TURN
  | RIVER
  | SHOWDOWN
  | WAITING_FOR_PLAYERS
deriving DecidableEq

/-- The action strings accepted by `process_action`; `UNKNOWN` stands for
every other string (the source keys actions by strings). -/
inductive ActionType
  | FOLD
  | CHECK
  | CALL
  | BET
  | RAISE
  | UNKNOWN
deriving DecidableEq

/-- Modelled from the spec: `card_utils.py` is not under src/.  §4.1: "Cards
are rank×suit pairs; rank ordering is the standard 2…10,J,Q,K,A scale".
Ranks are 2..14 (ace = 14), suits 0..3. -/
structure Card where
  rank : Nat
  suit : Nat
deriving DecidableEq

/-- Table configuration (`PokerTable`): the blind amounts the engine reads. -/
structure TableCfg where
  smallBlind : Money
  bigBlind : Money
deriving DecidableEq

/-- One `PlayerGame` row: a seat occupancy. -/
structure Seat where
  pid : Nat
  pos : Nat
  stack : Money
  startingStack : Money
  currentBet : Money
  totalBet : Money
  isActive : Bool
  cashedOut : Bool
  isBot : Bool
  readyForNextHand : Bool
  cards : List Card
deriving DecidableEq

instance : Inhabited Seat :=
  ⟨{ pid := 0, pos := 0, stack := 0, startingStack := 0, currentBet := 0,
     totalBet := 0, isActive := false, cashedOut := false, isBot := false,
     readyForNextHand := false, cards := [] }⟩

/-- One `GameAction` row.  `hand` is the value of `Game.hand_count` at
recording time; it models the timestamp filter against the last
`HandHistory.completed_at`. -/
structure ActionRec where
  pid : Nat
  action : ActionType
  amount : Money
  phase : Option Phase
  hand : Nat
deriving DecidableEq

/-- One `HandHistory` row (the fields the engine reads back). -/
structure HandRecord where
  handNumber : Nat
  potAmount : Money
  finalPhase : Option Phase
deriving DecidableEq

/-- The `Game` row. -/
structure Game where
  status : GStatus
  phase : Option Phase
  pot : Money
  currentBet : Money
  dealerPos : Nat
  currentPlayer : Option Nat
  communityCards : List Card
  handCount : Nat
  winnerInfo : Option (List Nat)
deriving DecidableEq

/-- The whole per-game database slice `GameService` touches. -/
structure GameState where
  table : TableCfg
  game : Game
  seats : List Seat
  actions : List ActionRec
  histories : List HandRecord
deriving DecidableEq

/-- The `ValueError` conditions the service raises. -/
inductive GameErr
  | alreadyStarted
  | notEnoughPlayers
  | notInProgress
  | notYourTurn
  | notInGame
  | cannotCheck
  | betWhenBetExists
  | betBelowMin
  | raiseWhenNoBet
  | raiseBelowMin
  | invalidAction
deriving DecidableEq

/-- `PlayerGame.objects.filter(game=game, is_active=True, cashed_out=False)`
ordered by seat position (the seats list is kept in seat-position order). -/
def activeSeats (s : GameState) : List Seat :=
  s.seats.filter (fun p => p.isActive && !p.cashedOut)

/-- Saving one fetched row: replace the first seat carrying this (unique)
seat position. -/
def updateFirstSeat (pos : Nat) (f : Seat → Seat) : List Seat → List Seat
  | [] => []
  | p :: rest =>
      if p.pos = pos then f p :: rest else p :: updateFirstSeat pos f rest

def updateSeat (s : GameState) (pos : Nat) (f : Seat → Seat) : GameState :=
  { s with seats := updateFirstSeat pos f s.seats }

/-- `PlayerGame.objects.get(game=game, player_id=player_id, is_active=True,
cashed_out=False)` (first match; `None` = `DoesNotExist`). -/
def findSeatPid (s : GameState) (pid : Nat) : Option Seat :=
  s.seats.find? (fun p => p.pid == pid && p.isActive && !p.cashedOut)

def setCurrentPlayer (s : GameState) (pid : Nat) : GameState :=
  { s with game := { s.game with currentPlayer := some pid } }

/-- Append a `GameAction` row (newest first). -/
def recordAction (s : GameState) (pid : Nat) (a : ActionType) (amt : Money) :
    GameState :=
  { s with actions :=
      { pid := pid, action := a, amount := amt, phase := s.game.phase,
        hand := s.game.handCount } :: s.actions }

/-- `GameService._handle_fold`. -/
def handleFold (s : GameState) (p : Seat) : GameState :=
  updateSeat s p.pos (fun q => { q with isActive := false })

/-- `GameService._handle_check`: only a validation, no mutation. -/
def handleCheck (s : GameState) (p : Seat) : Option GameErr :=
  if p.currentBet ≠ s.game.currentBet then some GameErr.cannotCheck else none

/-- `GameService._handle_call`: never rejects; applies
`min(current_bet - player_current_bet, player_stack)` to the trackers and
returns the amount (stack and pot untouched). -/
def handleCall (s : GameState) (p : Seat) : Money × GameState :=
  let callAmount := min (s.game.currentBet - p.currentBet) p.stack
  (callAmount,
    updateSeat s p.pos (fun q =>
      { q with currentBet := q.currentBet + callAmount,
               totalBet := q.totalBet + callAmount }))

/-- `GameService._handle_bet`: validations first, then tracker updates and
the new game-level current bet; the error component carries the state as
mutated so far (the source mutates nothing before raising). -/
def handleBet (s : GameState) (p : Seat) (amount : Money) :
    Option GameErr × GameState :=
  if 0 < s.game.currentBet then (some GameErr.betWhenBetExists, s)
  else if amount < s.table.bigBlind then (some GameErr.betBelowMin, s)
  else
    let betAmount := min amount p.stack
    let s1 := updateSeat s p.pos (fun q =>
      { q with currentBet := betAmount, totalBet := q.totalBet + betAmount })
    (none, { s1 with game := { s1.game with currentBet := betAmount } })

/-- `GameService._handle_raise`: the minimum-raise check compares the
requested total against `2 * current_bet` before any stack cap is applied;
the contribution is capped at the seat's stack only afterwards. -/
def handleRaise (s : GameState) (p : Seat) (amount : Money) :
    Option GameErr × GameState :=
  if s.game.currentBet = 0 then (some GameErr.raiseWhenNoBet, s)
  else
    let raiseAmount := amount - p.currentBet
    if amount < s.game.currentBet * 2 then (some GameErr.raiseBelowMin, s)
    else
      let availableRaise := min raiseAmount p.stack
      let totalBet := p.currentBet + availableRaise
      let s1 := updateSeat s p.pos (fun q =>
        { q with currentBet := totalBet,
                 totalBet := q.totalBet + availableRaise })
      (none, { s1 with game := { s1.game with currentBet := totalBet } })

/-- `GameService._collect_bets_to_pot`: for every non-cashed-out seat with a
positive current bet, debit the stack by that bet and add it to the pot. -/
def collectBetsToPot (s : GameState) : GameState :=
  let cond := fun (p : Seat) => !p.cashedOut && decide (0 < p.currentBet)
  let total := ((s.seats.filter cond).map (·.currentBet)).sum
  { s with
    seats := s.seats.map (fun p =>
      if cond p then { p with stack := p.stack - p.currentBet } else p),
    game := { s.game with pot := s.game.pot + total } }

/-- The per-seat reset loop in `_move_to_next_phase`: zero `current_bet` of
ACTIVE non-cashed-out seats only. -/
def resetActiveBets (s : GameState) : GameState :=
  { s with seats := s.seats.map (fun p =>
      if p.isActive && !p.cashedOut then { p with currentBet := 0 } else p) }

/-- `GameService._get_valid_actions`. -/
def getValidActions (s : GameState) (p : Seat) : List ActionType :=
  let toCall := s.game.currentBet - p.currentBet
  (if 0 < p.stack then [ActionType.FOLD] else []) ++
  (if toCall = 0 then [ActionType.CHECK] else []) ++
  (if 0 < toCall ∧ toCall ≤ p.stack then [ActionType.CALL] else []) ++
  (if s.game.currentBet = 0 ∧ 0 < p.stack then [ActionType.BET] else []) ++
  (if 0 < s.game.currentBet ∧ toCall < p.stack then [ActionType.RAISE] else [])

/-- `GameService._is_betting_round_complete` over the action log of the
current hand and phase. -/
def isBettingRoundComplete (s : GameState) (actives : List Seat) : Bool :=
  let cb := s.game.currentBet
  let rule1 := actives.all (fun p =>
    !(decide (p.currentBet < cb) && decide (0 < p.stack)))
  let activePids := actives.map (·.pid)
  let inPhase := fun (a : ActionRec) =>
    decide (a.phase = s.game.phase) && (a.hand == s.game.handCount) &&
    activePids.contains a.pid
  let rule2 := actives.all (fun p =>
    decide (p.stack = 0) ||
    s.actions.any (fun a => inPhase a && (a.pid == p.pid)))
  let aggPred := fun (a : ActionRec) =>
    inPhase a &&
    (decide (a.action = ActionType.BET) || decide (a.action = ActionType.RAISE))
  let rule3 :=
    match s.actions.find? aggPred with
    | none => true
    | some agg =>
        actives.all (fun p =>
          (p.pid == agg.pid) || decide (p.stack = 0) ||
          (s.actions.takeWhile (fun a => !aggPred a)).any (fun a =>
            (a.pid == p.pid) && decide (a.phase = s.game.phase)))
  rule1 && rule2 && rule3

/-- Modelled from the spec: `hand_evaluator.py` is not under src/.  §4.2:
`evaluate` returns a category (1 = strongest, 9 = high card) and a tiebreak
key that totally orders hands inside a category (descending rank list,
ranks sorted by multiplicity then rank); the wheel A-5-4-3-2 counts as a
straight with high card 5. -/
def countRank (cs : List Card) (r : Nat) : Nat :=
  cs.countP (fun c => c.rank == r)

def straightHigh (cs : List Card) : Option Nat :=
  let has := fun r => 0 < countRank cs r
  let highs := (List.range 9).map (fun i => 14 - i)
  match highs.find? (fun h => (List.range 5).all (fun j => has (h - j))) with
  | some h => some h
  | none =>
      if has 14 && has 5 && has 4 && has 3 && has 2 then some 5 else none

def insertByKeyDesc (key : Nat → Nat) (x : Nat) : List Nat → List Nat
  | [] => [x]
  | y :: ys =>
      if key y < key x then x :: y :: ys else y :: insertByKeyDesc key x ys

def sortByKeyDesc (key : Nat → Nat) : List Nat → List Nat
  | [] => []
  | x :: xs => insertByKeyDesc key x (sortByKeyDesc key xs)

/-- Modelled from the spec: category and tiebreak of one five-card hand. -/
def evalFive (cs : List Card) : Nat × List Nat :=
  let isFlush :=
    match cs with
    | [] => false
    | c :: rest => rest.all (fun d => d.suit == c.suit)
  let sh := straightHigh cs
  let counts := (List.range 13).map (fun i => countRank cs (i + 2))
  let maxCount := counts.foldl max 0
  let pairCount := counts.countP (fun c => c == 2)
  let cat : Nat :=
    if isFlush && sh.isSome then 1
    else if maxCount == 4 then 2
    else if maxCount == 3 && pairCount == 1 then 3
    else if isFlush then 4
    else if sh.isSome then 5
    else if maxCount == 3 then 6
    else if pairCount == 2 then 7
    else if pairCount == 1 then 8
    else 9
  let tb :=
    match sh with
    | some h => if cat = 1 ∨ cat = 5 then [h] else
        sortByKeyDesc (fun r => countRank cs r * 100 + r) (cs.map (·.rank))
    | none => sortByKeyDesc (fun r => countRank cs r * 100 + r) (cs.map (·.rank))
  (cat, tb)

/-- Python list comparison on the negated tiebreak: `a` beats `b` when `a`'s
value list is lexicographically greater. -/
def lexGt : List Nat → List Nat → Bool
  | _ :: _, [] => true
  | [], _ => false
  | x :: xs, y :: ys => if x == y then lexGt xs ys else decide (y < x)

/-- The sort key of `_showdown`: lower category first, then lexicographically
greater tiebreak. -/
def keyBetter (a b : Nat × List Nat) : Bool :=
  if a.1 = b.1 then lexGt a.2 b.2 else decide (a.1 < b.1)

/-- Modelled from the spec: best five-card evaluation over all 5-card
subsets of the given cards. -/
def evaluateHand (cs : List Card) : Nat × List Nat :=
  match (cs.sublistsLen 5).map evalFive with
  | [] => (9, [])
  | k :: ks => ks.foldl (fun best x => if keyBetter x best then x else best) k

/-- `GameService._save_hand_history`: no-op without winner info or when the
hand number already has a history row; otherwise append the row with the
given pot amount and set `hand_count` to that hand number. -/
def saveHandHistory (s : GameState) (potAmount : Money) : GameState :=
  match s.game.winnerInfo with
  | none => s
  | some _ =>
      if s.histories.any (fun h => h.handNumber == s.game.handCount + 1) then s
      else
        { s with
          histories :=
            { handNumber := s.game.handCount + 1, potAmount := potAmount,
              finalPhase := s.game.phase } :: s.histories,
          game := { s.game with handCount := s.game.handCount + 1 } }

/-- `GameService._auto_ready_bots`. -/
def autoReadyBots (s : GameState) : GameState :=
  { s with seats := s.seats.map (fun p =>
      if p.isBot && !p.cashedOut && decide (0 < p.stack) then
        { p with readyForNextHand := true }
      else p) }

/-- Deal two hole cards to each listed seat, in order, from the fresh deck
(`deck.deal(2)` per seat). -/
def dealHoles (deck : List Card) (acts : List Seat) (s : GameState) :
    GameState :=
  acts.enum.foldl (fun st ip =>
    updateSeat st ip.2.pos (fun q =>
      { q with cards := (deck.drop (2 * ip.1)).take 2 })) s

/-- `GameService._start_new_hand` (the fresh shuffled deck is passed in). -/
def startNewHand (deck : List Card) (s : GameState) : GameState :=
  let withMoney := s.seats.filter (fun p => decide (0 < p.stack) && !p.cashedOut)
  if withMoney.length < 2 then
    { s with game := { s.game with status := GStatus.FINISHED } }
  else
    let seats1 := s.seats.map (fun p =>
      if decide (0 < p.stack) && !p.cashedOut then
        { p with isActive := true, cards := [], currentBet := 0,
                 totalBet := 0, readyForNextHand := false }
      else if !p.cashedOut then
        { p with isActive := false, readyForNextHand := false }
      else p)
    let s1 := { s with seats := seats1 }
    let acts := activeSeats s1
    let n := acts.length
    let dealer := (s.game.dealerPos + 1) % n
    let s2 := { s1 with game := { s1.game with
      dealerPos := dealer, phase := some Phase.PREFLOP,
      communityCards := [], currentBet := 0, winnerInfo := none } }
    let s3 := dealHoles deck acts s2
    let sbPos := (dealer + 1) % n
    let bbPos := (dealer + 2) % n
    let sb := acts.getD sbPos default
    let bb := acts.getD bbPos default
    let sbAmt := min s.table.smallBlind sb.stack
    let bbAmt := min s.table.bigBlind bb.stack
    let s4 := updateSeat s3 sb.pos (fun p =>
      { p with currentBet := sbAmt, totalBet := sbAmt })
    let s5 := updateSeat s4 bb.pos (fun p =>
      { p with currentBet := bbAmt, totalBet := bbAmt })
    let cp := acts.getD ((bbPos + 1) % n) default
    { s5 with game := { s5.game with
        currentBet := bbAmt, currentPlayer := some cp.pid,
        handCount := s5.game.handCount + 1 } }

/-- `GameService._check_and_start_next_hand`. -/
def checkAndStartNextHand (deck : List Card) (s : GameState) : GameState :=
  let eligible := s.seats.filter (fun p => !p.cashedOut && decide (0 < p.stack))
  if 1 < eligible.length && eligible.all (·.readyForNextHand) then
    startNewHand deck
      { s with game := { s.game with winnerInfo := none } }
  else s

/-- Banker's rounding of a rational to an integer: round to the nearest,
ties to the even neighbour.  This is `ROUND_HALF_EVEN`, the default
rounding of Python `Decimal.quantize`, which Django applies when saving a
value into a `DecimalField` column. -/
def roundHalfEven (x : ℚ) : ℤ :=
  if Int.fract x < 1/2 then ⌊x⌋
  else if 1/2 < Int.fract x then ⌊x⌋ + 1
  else if ⌊x⌋ % 2 = 0 then ⌊x⌋ else ⌊x⌋ + 1

/-- Save-time quantization of a `DecimalField(decimal_places=2)` column:
round to a whole number of cents, ties to even.  Sums, differences and
`min` of column values need no rounding, so in every state reachable by
the engine this quantization acts only where a non-2-decimal value is
produced: the split-pot share `pot / Decimal(len(winners))`.  (The
intermediate 28-significant-digit Decimal division is exact to well below
a cent for any realistic winner count, so only the final column
quantization is modelled.) -/
def quantize2 (x : Money) : Money :=
  ((roundHalfEven (100 * x) : ℤ) : ℚ) / 100

/-- `GameService._showdown`.  With a single remaining active seat the pot is
credited without evaluation (`stack += pot` needs no rounding: both are
column values); otherwise each active seat's seven cards are evaluated and
each winner's stack becomes the 2-decimal quantization of
`stack + pot / len(winners)` — the Decimal division does not generally
return the winners a total equal to the pot.  In both branches the hand
history row is written before the pot is reset.  The deck is used only if
a next hand auto-starts. -/
def showdown (deck : List Card) (s : GameState) : GameState :=
  let actives := activeSeats s
  if actives.length = 1 then
    match actives with
    | [] => s
    | w :: _ =>
        let pot := s.game.pot
        let s1 := updateSeat s w.pos (fun p => { p with stack := p.stack + pot })
        let s2 := { s1 with game := { s1.game with winnerInfo := some [w.pid] } }
        let s3 := saveHandHistory s2 pot
        let s4 := { s3 with game := { s3.game with
            pot := 0, phase := some Phase.WAITING_FOR_PLAYERS } }
        checkAndStartNextHand deck (autoReadyBots s4)
  else
    let evals := actives.map (fun p =>
      (evaluateHand (p.cards ++ s.game.communityCards), p))
    match evals with
    | [] => s
    | e :: es =>
        let best := (es.foldl (fun b x => if keyBetter x.1 b.1 then x else b) e).1
        let winners := (evals.filter (fun x => decide (x.1 = best))).map (·.2)
        let win := s.game.pot / (winners.length : Money)
        let s1 := winners.foldl (fun st wp =>
          updateSeat st wp.pos
            (fun p => { p with stack := quantize2 (p.stack + win) })) s
        let s2 := { s1 with game := { s1.game with
            winnerInfo := some (winners.map (·.pid)) } }
        let s3 := saveHandHistory s2 s.game.pot
        let s4 := { s3 with game := { s3.game with
            pot := 0, phase := some Phase.WAITING_FOR_PLAYERS } }
        checkAndStartNextHand deck (autoReadyBots s4)

/-- The trailing "first active seat after the dealer acts first" assignment
of `_move_to_next_phase` (the loop body runs once; with no active seats the
loop is skipped). -/
def setFirstActorAfterDealer (s : GameState) : GameState :=
  let acts := activeSeats s
  match acts[(s.game.dealerPos + 1) % acts.length]? with
  | some p => setCurrentPlayer s p.pid
  | none => s

/-- `GameService._move_to_next_phase`.  The fresh deck drawn inside (for
community cards, or for an auto-started next hand) is passed in. -/
def moveToNextPhase (deck : List Card) (s : GameState) : GameState :=
  let n := (activeSeats s).length
  let s1 := collectBetsToPot s
  if n = 1 then
    showdown deck { s1 with game := { s1.game with phase := some Phase.SHOWDOWN } }
  else
    let s2 := resetActiveBets s1
    let s3 := { s2 with game := { s2.game with currentBet := 0 } }
    let s4 :=
      match s3.game.phase with
      | some Phase.PREFLOP =>
          { s3 with game := { s3.game with
              communityCards := deck.take 3, phase := some Phase.FLOP } }
      | some Phase.FLOP =>
          { s3 with game := { s3.game with
              communityCards := s3.game.communityCards ++ deck.take 1,
              phase := some Phase.TURN } }
      | some Phase.TURN =>
          { s3 with game := { s3.game with
              communityCards := s3.game.communityCards ++ deck.take 1,
              phase := some Phase.RIVER } }
      | some Phase.RIVER =>
          showdown deck
            { s3 with game := { s3.game with phase := some Phase.SHOWDOWN } }
      | _ => s3
    if s4.game.phase = some Phase.SHOWDOWN then s4
    else setFirstActorAfterDealer s4

/-- `GameService._advance_game` (bot scheduling is an asynchronous side
effect outside this state model). -/
def advanceGame (deck : List Card) (s : GameState) : GameState :=
  let actives := activeSeats s
  if actives.length = 1 then moveToNextPhase deck s
  else if isBettingRoundComplete s actives then moveToNextPhase deck s
  else
    match actives.findIdx? (fun p => s.game.currentPlayer == some p.pid) with
    | some i =>
        match actives[(i + 1) % actives.length]? with
        | some nxt => setCurrentPlayer s nxt.pid
        | none => s
    | none =>
        match s.seats.find? (fun p => s.game.currentPlayer == some p.pid) with
        | some cur =>
            match actives.find? (fun p => cur.pos < p.pos) with
            | some nxt => setCurrentPlayer s nxt.pid
            | none =>
                match actives with
                | nxt :: _ => setCurrentPlayer s nxt.pid
                | [] => s
        | none =>
            match actives with
            | nxt :: _ => setCurrentPlayer s nxt.pid
            | [] => s

/-- `GameService.process_action` up to (and including) recording the action:
validations in source order, then the handler, then the `GameAction` row.
The state component of an error result is the state as mutated up to the
point where the `ValueError` is raised. -/
def processActionCore (s : GameState) (pid : Nat) (a : ActionType)
    (amount : Money) : Option GameErr × GameState :=
  if s.game.status ≠ GStatus.PLAYING then (some GameErr.notInProgress, s)
  else if s.game.currentPlayer ≠ some pid then (some GameErr.notYourTurn, s)
  else
    match findSeatPid s pid with
    | none => (some GameErr.notInGame, s)
    | some p =>
        match a with
        | ActionType.FOLD =>
            (none, recordAction (handleFold s p) pid ActionType.FOLD 0)
        | ActionType.CHECK =>
            match handleCheck s p with
            | some e => (some e, s)
            | none => (none, recordAction s pid ActionType.CHECK 0)
        | ActionType.CALL =>
            let r := handleCall s p
            (none, recordAction r.2 pid ActionType.CALL r.1)
        | ActionType.BET =>
            match handleBet s p amount with
            | (some e, s1) => (some e, s1)
            | (none, s1) => (none, recordAction s1 pid ActionType.BET amount)
        | ActionType.RAISE =>
            match handleRaise s p amount with
            | (some e, s1) => (some e, s1)
            | (none, s1) => (none, recordAction s1 pid ActionType.RAISE amount)
        | ActionType.UNKNOWN => (some GameErr.invalidAction, s)

/-- `GameService.process_action`: core, then `_advance_game`. -/
def processActionF (deck : List Card) (s : GameState) (pid : Nat)
    (a : ActionType) (amount : Money) : Option GameErr × GameState :=
  match processActionCore s pid a amount with
  | (some e, s1) => (some e, s1)
  | (none, s1) => (none, advanceGame deck s1)

/-- `GameService.start_game` with the randomly drawn dealer position and the
fresh shuffled deck passed in. -/
def startGame (d : Nat) (deck : List Card) (s : GameState) :
    Except GameErr GameState :=
  if s.game.status ≠ GStatus.WAITING then Except.error GameErr.alreadyStarted
  else
    let pgs := activeSeats s
    let n := pgs.length
    if n < 2 then Except.error GameErr.notEnoughPlayers
    else
      let s1 := { s with game := { s.game with
          dealerPos := d, status := GStatus.PLAYING,
          phase := some Phase.PREFLOP } }
      let sbPos := (d + 1) % n
      let bbPos := (d + 2) % n
      let sb := pgs.getD sbPos default
      let bb := pgs.getD bbPos default
      let sbAmt := min s.table.smallBlind sb.stack
      let bbAmt := min s.table.bigBlind bb.stack
      let s2 := updateSeat s1 sb.pos (fun p =>
        { p with currentBet := sbAmt, totalBet := sbAmt })
      let s3 := updateSeat s2 bb.pos (fun p =>
        { p with currentBet := bbAmt, totalBet := bbAmt })
      let s4 := { s3 with game := { s3.game with currentBet := bbAmt } }
      let s5 := dealHoles deck pgs s4
      let cp := pgs.getD ((bbPos + 1) % n) default
      Except.ok (setCurrentPlayer s5 cp.pid)

/-- `GameService.create_game`: a WAITING game with one seat per buy-in. -/
def createGame (table : TableCfg) (buyIns : List (Nat × Money)) : GameState :=
  { table := table,
    game := { status := GStatus.WAITING, phase := none, pot := 0,
              currentBet := 0, dealerPos := 0, currentPlayer := none,
              communityCards := [], handCount := 0, winnerInfo := none },
    seats := buyIns.enum.map (fun ib =>
      { pid := ib.2.1, pos := ib.1, stack := ib.2.2, startingStack := ib.2.2,
        currentBet := 0, totalBet := 0, isActive := true, cashedOut := false,
        isBot := false, readyForNextHand := false, cards := [] }),
    actions := [], histories := [] }

/-- `GameService._handle_bot_action_failure`: pick the first currently legal
action in priority order FOLD, CHECK, CALL and feed it through
`process_action`; every failure path leaves the state untouched (the
enclosing transaction rolls back). -/
def handleBotActionFailure (deck : List Card) (s : GameState) : GameState :=
  match s.game.currentPlayer with
  | none => s
  | some pid =>
      if s.game.status ≠ GStatus.PLAYING then s
      else
        match findSeatPid s pid with
        | none => s
        | some p =>
            let va := getValidActions s p
            let fb :=
              if va.contains ActionType.FOLD then some ActionType.FOLD
              else if va.contains ActionType.CHECK then some ActionType.CHECK
              else if va.contains ActionType.CALL then some ActionType.CALL
              else none
            match fb with
            | none => s
            | some act =>
                match processActionF deck s pid act 0 with
                | (some _, _) => s
                | (none, s1) => s1

/-- Sum of all seats' stacks plus the pot: the quantity the engine actually
conserves (uncollected `current_bet` amounts still reside in the stacks). -/
def totalChips (s : GameState) : Money :=
  (s.seats.map (·.stack)).sum + s.game.pot

/-- The sum the spec's chip-conservation formula claims is conserved. -/
def claimedSum (s : GameState) : Money :=
  (s.seats.map (·.stack)).sum + (s.seats.map (·.currentBet)).sum + s.game.pot

/-- Total chips bought in: every seat's starting stack (no buy-backs and no
departures occur in the states considered here). -/
def boughtIn (s : GameState) : Money :=
  (s.seats.map (·.startingStack)).sum

/-- The seat occupying a given seat position. -/
def seatAt (s : GameState) (pos : Nat) : Option Seat :=
  s.seats.find? (fun q => q.pos == pos)

instance : DecidableEq (Except GameErr GameState) := fun x y =>
  match x, y with
  | Except.ok a, Except.ok b =>
      if h : a = b then isTrue (h ▸ rfl)
      else isFalse (fun hc => h (Except.ok.inj hc))
  | Except.error a, Except.error b =>
      if h : a = b then isTrue (h ▸ rfl)
      else isFalse (fun hc => h (Except.error.inj hc))
  | Except.ok _, Except.error _ => isFalse (fun hc => Except.noConfusion hc)
  | Except.error _, Except.ok _ => isFalse (fun hc => Except.noConfusion hc)

/-- The state delivered by a successful `start_game`, or the input state on
failure (lets closed statements name the result without binders). -/
def startedOrSame (d : Nat) (deck : List Card) (s : GameState) : GameState :=
  match startGame d deck s with
  | Except.ok s1 => s1
  | Except.error _ => s

/- Concrete states used by the closed counterexample and witness theorems. -/

def exTable : TableCfg := { smallBlind := 1, bigBlind := 2 }

def exDeck : List Card :=
  (List.range 12).map (fun i => { rank := i + 2, suit := 1 })

/-- A seat helper for concrete states. -/
def mkSeat (pid pos : Nat) (stack cb tb : Money) (act : Bool) : Seat :=
  { pid := pid, pos := pos, stack := stack, startingStack := 100,
    currentBet := cb, totalBet := tb, isActive := act, cashedOut := false,
    isBot := false, readyForNextHand := false, cards := [] }

/-- Heads-up WAITING game: blinds 1/2, two seats with stacks 100 and 100. -/
def exHeadsUp : GameState := createGame exTable [(1, 100), (2, 100)]

/-- A PREFLOP game whose betting round is complete after the small blind
(seat 1, having posted blind 1) folded: seats 0 and 2 both match the big
blind 2, every seat has acted and nobody raised after the last aggressor
(there is none recorded: the blinds are implicit). -/
def exStaleFold : GameState :=
  { table := exTable,
    game := { status := GStatus.PLAYING, phase := some Phase.PREFLOP, pot := 0,
              currentBet := 2, dealerPos := 0, currentPlayer := some 3,
              communityCards := [], handCount := 0, winnerInfo := none },
    seats := [mkSeat 1 0 100 2 2 true, mkSeat 2 1 100 1 1 false,
              mkSeat 3 2 100 2 2 true],
    actions := [{ pid := 3, action := ActionType.CALL, amount := 0,
                  phase := some Phase.PREFLOP, hand := 0 },
                { pid := 1, action := ActionType.CALL, amount := 0,
                  phase := some Phase.PREFLOP, hand := 0 }],
    histories := [] }

/-- A state with every hole card and community card removed: used to state
that the fold-out award is computed without any hand evaluation. -/
def eraseCards (s : GameState) : GameState :=
  { s with seats := s.seats.map (fun p => { p with cards := [] }),
           game := { s.game with communityCards := [] } }

/-- Heads-up PLAYING game whose current actor is a bot (seat 0, having
posted the big blind 2); the human at seat 1 posted the small blind and is
not ready for a next hand. -/
def exBotStuck : GameState :=
  { table := exTable,
    game := { status := GStatus.PLAYING, phase := some Phase.PREFLOP, pot := 0,
              currentBet := 2, dealerPos := 0, currentPlayer := some 1,
              communityCards := [], handCount := 0, winnerInfo := none },
    seats := [{ mkSeat 1 0 100 2 2 true with isBot := true },
              mkSeat 2 1 100 1 1 true],
    actions := [], histories := [] }

/-- A PLAYING game on the FLOP facing a bet of 10: seat 1 (pid 2) is to act
with a stack of 5, smaller than the call amount. -/
def exShortStack : GameState :=
  { table := exTable,
    game := { status := GStatus.PLAYING, phase := some Phase.FLOP, pot := 4,
              currentBet := 10, dealerPos := 0, currentPlayer := some 2,
              communityCards := [], handCount := 0, winnerInfo := none },
    seats := [mkSeat 1 0 90 10 12 true, mkSeat 2 1 5 0 2 true],
    actions := [{ pid := 1, action := ActionType.BET, amount := 10,
                  phase := some Phase.FLOP, hand := 0 }],
    histories := [] }

/-- A PLAYING game on the FLOP with no bet yet where seat 1 (pid 2) already
matches the current bet (both zero): nothing to call. -/
def exNothingToCall : GameState :=
  { table := exTable,
    game := { status := GStatus.PLAYING, phase := some Phase.FLOP, pot := 4,
              currentBet := 0, dealerPos := 0, currentPlayer := some 2,
              communityCards := [], handCount := 0, winnerInfo := none },
    seats := [mkSeat 1 0 98 0 2 true, mkSeat 2 1 98 0 2 true],
    actions := [], histories := [] }

/-- A hand reduced to a single active seat (pid 2, seat 1): seat 0 folded
after betting 2; the pot of 5 is ready for the fold-out award.  Neither
seat is a bot and neither is ready for the next hand. -/
def exFoldOut : GameState :=
  { table := exTable,
    game := { status := GStatus.PLAYING, phase := some Phase.SHOWDOWN, pot := 5,
              currentBet := 0, dealerPos := 0, currentPlayer := some 1,
              communityCards := [], handCount := 0, winnerInfo := none },
    seats := [mkSeat 1 0 98 0 2 false, mkSeat 2 1 97 0 3 true],
    actions := [], histories := [] }

/-- A showdown with a guaranteed three-way tie: every seat plays the board
(a royal flush) so the three evaluations are identical, and the pot of 1.00
is not divisible by 3.  Nobody is ready for a next hand, so the state after
the award is final. -/
def exSplit3 : GameState :=
  { table := exTable,
    game := { status := GStatus.PLAYING, phase := some Phase.SHOWDOWN, pot := 1,
              currentBet := 0, dealerPos := 0, currentPlayer := some 1,
              communityCards :=
                [⟨14, 0⟩, ⟨13, 0⟩, ⟨12, 0⟩, ⟨11, 0⟩, ⟨10, 0⟩],
              handCount := 0, winnerInfo := none },
    seats := [mkSeat 1 0 10 0 0 true, mkSeat 2 1 10 0 0 true,
              mkSeat 3 2 10 0 0 true],
    actions := [], histories := [] }

/-! ### Helper lemmas about seat-list updates -/

lemma updateFirstSeat_map_invar {β : Type} (pos : Nat) (f : Seat → Seat)
    (g : Seat → β) (hg : ∀ p, g (f p) = g p) :
    ∀ l : List Seat, (updateFirstSeat pos f l).map g = l.map g := by
  intro l
  induction l with
  | nil => rfl
  | cons p rest ih =>
      by_cases h : p.pos = pos <;> simp [updateFirstSeat, h, hg, ih]

lemma updateFirstSeat_sum_add (pos : Nat) (f : Seat → Seat)
    (g : Seat → Money) (d : Money) (hg : ∀ p, g (f p) = g p + d) :
    ∀ l : List Seat, pos ∈ l.map (·.pos) →
      ((updateFirstSeat pos f l).map g).sum = (l.map g).sum + d := by
  intro l
  induction l with
  | nil => simp
  | cons p rest ih =>
      intro hmem
      by_cases h : p.pos = pos
      · simp [updateFirstSeat, h, hg]
        ring
      · have hmem' : pos ∈ rest.map (·.pos) := by
          rcases List.mem_map.mp hmem with ⟨q, hq, hqpos⟩
          rcases List.mem_cons.mp hq with hq1 | hq1
          · exact absurd (hq1 ▸ hqpos) h
          · exact List.mem_map.mpr ⟨q, hq1, hqpos⟩
        simp [updateFirstSeat, h, ih hmem']
        ring

lemma map_map_stack_invar (F : Seat → Seat)
    (hF : ∀ p, (F p).stack = p.stack) (l : List Seat) :
    (l.map F).map (·.stack) = l.map (·.stack) := by
  induction l with
  | nil => rfl
  | cons p rest ih => simp [hF, ih]

lemma collect_stack_sum (cond : Seat → Bool) (l : List Seat) :
    ((l.map (fun p =>
        if cond p then { p with stack := p.stack - p.currentBet } else p)).map
      (·.stack)).sum
      = (l.map (·.stack)).sum - ((l.filter cond).map (·.currentBet)).sum := by
  induction l with
  | nil => simp
  | cons p rest ih =>
      by_cases h : cond p
      · simp only [List.map_cons, List.sum_cons, List.filter_cons, h, if_pos,
          ite_true, ih]
        ring
      · simp only [List.map_cons, List.sum_cons, List.filter_cons, h,
          Bool.false_eq_true, ite_false, ih]
        ring

lemma totalChips_eq_of {s1 s2 : GameState}
    (h1 : s1.seats.map (·.stack) = s2.seats.map (·.stack))
    (h2 : s1.game.pot = s2.game.pot) : totalChips s1 = totalChips s2 := by
  unfold totalChips
  rw [h1, h2]

lemma dealHoles_game (deck : List Card) (acts : List Seat) (s : GameState) :
    (dealHoles deck acts s).game = s.game := by
  unfold dealHoles
  generalize acts.enum = l
  induction l generalizing s with
  | nil => rfl
  | cons a rest ih => rw [List.foldl_cons]; exact ih _

lemma dealHoles_stacks (deck : List Card) (acts : List Seat) (s : GameState) :
    (dealHoles deck acts s).seats.map (·.stack) = s.seats.map (·.stack) := by
  unfold dealHoles
  generalize acts.enum = l
  induction l generalizing s with
  | nil => rfl
  | cons a rest ih =>
      rw [List.foldl_cons, ih]
      simp only [updateSeat]
      apply updateFirstSeat_map_invar
      intro p
      rfl

lemma saveHandHistory_frame (s : GameState) (m : Money) :
    (saveHandHistory s m).seats = s.seats ∧
    (saveHandHistory s m).game.pot = s.game.pot ∧
    (saveHandHistory s m).game.currentPlayer = s.game.currentPlayer ∧
    (saveHandHistory s m).game.phase = s.game.phase ∧
    (saveHandHistory s m).game.status = s.game.status ∧
    s.game.handCount ≤ (saveHandHistory s m).game.handCount := by
  unfold saveHandHistory
  split
  · exact ⟨rfl, rfl, rfl, rfl, rfl, le_refl _⟩
  · split
    · exact ⟨rfl, rfl, rfl, rfl, rfl, le_refl _⟩
    · exact ⟨rfl, rfl, rfl, rfl, rfl, Nat.le_succ _⟩

lemma autoReadyBots_stacks (s : GameState) :
    (autoReadyBots s).seats.map (·.stack) = s.seats.map (·.stack) := by
  unfold autoReadyBots
  exact map_map_stack_invar _ (fun p => by split <;> rfl) s.seats

lemma resetActiveBets_stacks (s : GameState) :
    (resetActiveBets s).seats.map (·.stack) = s.seats.map (·.stack) := by
  unfold resetActiveBets
  exact map_map_stack_invar _ (fun p => by split <;> rfl) s.seats

lemma totalChips_collect (s : GameState) :
    totalChips (collectBetsToPot s) = totalChips s := by
  simp only [totalChips, collectBetsToPot]
  rw [collect_stack_sum]
  ring

lemma updateFirstSeat_stacks (pos : Nat) (f : Seat → Seat) (l : List Seat)
    (hf : ∀ p, (f p).stack = p.stack) :
    (updateFirstSeat pos f l).map (·.stack) = l.map (·.stack) :=
  updateFirstSeat_map_invar pos f (fun p => p.stack) hf l

lemma totalChips_startNewHand (deck : List Card) (s : GameState) :
    totalChips (startNewHand deck s) = totalChips s := by
  simp only [startNewHand]
  split
  · rfl
  · refine totalChips_eq_of ?_ ?_
    · simp only [updateSeat]
      rw [updateFirstSeat_stacks, updateFirstSeat_stacks, dealHoles_stacks]
      · apply map_map_stack_invar
        intro p
        by_cases h1 : (decide (0 < p.stack) && !p.cashedOut) = true
        · simp [h1]
        · by_cases h2 : (!p.cashedOut) = true <;> simp [h1, h2] <;> split <;> rfl
      · intro p; rfl
      · intro p; rfl
    · simp only [updateSeat]
      rw [dealHoles_game]

lemma totalChips_autoReady (s : GameState) :
    totalChips (autoReadyBots s) = totalChips s :=
  totalChips_eq_of (autoReadyBots_stacks s) rfl

lemma totalChips_checkAndStart (deck : List Card) (s : GameState) :
    totalChips (checkAndStartNextHand deck s) = totalChips s := by
  simp only [checkAndStartNextHand]
  split
  · rw [totalChips_startNewHand]; rfl
  · rfl

lemma foldl_pick_mem {α : Type} (c : α → α → Bool) :
    ∀ (l : List α) (a : α),
      l.foldl (fun b x => if c x b then x else b) a ∈ a :: l := by
  intro l
  induction l with
  | nil => intro a; exact List.mem_cons_self _ _
  | cons x xs ih =>
      intro a
      rw [List.foldl_cons]
      rcases List.mem_cons.mp (ih (if c x a then x else a)) with h | h
      · rw [h]
        split
        · exact List.mem_cons_of_mem _ (List.mem_cons_self _ _)
        · exact List.mem_cons_self _ _
      · exact List.mem_cons_of_mem _ (List.mem_cons_of_mem _ h)

lemma roundHalfEven_le (x : ℚ) : ((roundHalfEven x : ℤ) : ℚ) ≤ x + 1/2 := by
  unfold roundHalfEven
  have h1 := Int.floor_add_fract x
  have h2 := Int.fract_nonneg x
  have h3 := Int.fract_lt_one x
  split_ifs with hf1 hf2 hf3 <;> push_cast <;> linarith

lemma roundHalfEven_ge (x : ℚ) : x - 1/2 ≤ ((roundHalfEven x : ℤ) : ℚ) := by
  unfold roundHalfEven
  have h1 := Int.floor_add_fract x
  have h2 := Int.fract_nonneg x
  have h3 := Int.fract_lt_one x
  split_ifs with hf1 hf2 hf3 <;> push_cast <;> linarith

lemma quantize2_le (x : Money) : quantize2 x ≤ x + 1/200 := by
  unfold quantize2
  have h := roundHalfEven_le (100 * x)
  rw [div_le_iff (by norm_num : (0:ℚ) < 100)]
  linarith

lemma quantize2_ge (x : Money) : x - 1/200 ≤ quantize2 x := by
  unfold quantize2
  have h := roundHalfEven_ge (100 * x)
  rw [le_div_iff (by norm_num : (0:ℚ) < 100)]
  linarith

lemma updateFirstSeat_sum_le (pos : Nat) (f : Seat → Seat)
    (g : Seat → Money) (d : Money) (hg : ∀ p, g (f p) ≤ g p + d) :
    ∀ l : List Seat, pos ∈ l.map (·.pos) →
      ((updateFirstSeat pos f l).map g).sum ≤ (l.map g).sum + d := by
  intro l
  induction l with
  | nil => simp
  | cons p rest ih =>
      intro hmem
      by_cases h : p.pos = pos
      · simp only [updateFirstSeat, if_pos h, List.map_cons, List.sum_cons]
        have := hg p
        linarith
      · simp only [updateFirstSeat, if_neg h, List.map_cons, List.sum_cons]
        have hmem2 : pos ∈ rest.map (·.pos) := by
          rw [List.map_cons, List.mem_cons] at hmem
          rcases hmem with h1 | h1
          · exact absurd h1.symm h
          · exact h1
        have := ih hmem2
        linarith

lemma updateFirstSeat_sum_ge (pos : Nat) (f : Seat → Seat)
    (g : Seat → Money) (d : Money) (hg : ∀ p, g p + d ≤ g (f p)) :
    ∀ l : List Seat, pos ∈ l.map (·.pos) →
      (l.map g).sum + d ≤ ((updateFirstSeat pos f l).map g).sum := by
  intro l
  induction l with
  | nil => simp
  | cons p rest ih =>
      intro hmem
      by_cases h : p.pos = pos
      · simp only [updateFirstSeat, if_pos h, List.map_cons, List.sum_cons]
        have := hg p
        linarith
      · simp only [updateFirstSeat, if_neg h, List.map_cons, List.sum_cons]
        have hmem2 : pos ∈ rest.map (·.pos) := by
          rw [List.map_cons, List.mem_cons] at hmem
          rcases hmem with h1 | h1
          · exact absurd h1.symm h
          · exact h1
        have := ih hmem2
        linarith

lemma creditFold_sum_le (win : Money) :
    ∀ (ws : List Seat) (s : GameState),
      (∀ w ∈ ws, w.pos ∈ s.seats.map (·.pos)) →
      ((ws.foldl (fun st wp => updateSeat st wp.pos
          (fun p => { p with stack := quantize2 (p.stack + win) })) s).seats.map
        (·.stack)).sum
        ≤ (s.seats.map (·.stack)).sum
            + (ws.length : Money) * (win + 1/200) := by
  intro ws
  induction ws with
  | nil => intro s h; simp
  | cons w rest ih =>
      intro s h
      rw [List.foldl_cons]
      have hpos : (updateSeat s w.pos
          (fun p => { p with stack := quantize2 (p.stack + win) })).seats.map
            (·.pos) = s.seats.map (·.pos) := by
        simp only [updateSeat]
        apply updateFirstSeat_map_invar
        intro p
        rfl
      have h1 := ih (updateSeat s w.pos
          (fun p => { p with stack := quantize2 (p.stack + win) })) ?memrest
      case memrest =>
        intro x hx
        rw [hpos]
        exact h x (List.mem_cons_of_mem _ hx)
      have h2 : ((updateSeat s w.pos
          (fun p => { p with stack := quantize2 (p.stack + win) })).seats.map
            (·.stack)).sum
          ≤ (s.seats.map (·.stack)).sum + (win + 1/200) := by
        simp only [updateSeat]
        refine updateFirstSeat_sum_le w.pos _ (fun p => p.stack) (win + 1/200)
          ?_ s.seats (h w (List.mem_cons_self _ _))
        intro p
        have := quantize2_le (p.stack + win)
        exact le_trans this (by linarith)
      refine le_trans h1 ?_
      simp only [List.length_cons]
      push_cast
      linarith

lemma creditFold_sum_ge (win : Money) :
    ∀ (ws : List Seat) (s : GameState),
      (∀ w ∈ ws, w.pos ∈ s.seats.map (·.pos)) →
      (s.seats.map (·.stack)).sum + (ws.length : Money) * (win - 1/200)
        ≤ ((ws.foldl (fun st wp => updateSeat st wp.pos
            (fun p => { p with stack := quantize2 (p.stack + win) })) s).seats.map
          (·.stack)).sum := by
  intro ws
  induction ws with
  | nil => intro s h; simp
  | cons w rest ih =>
      intro s h
      rw [List.foldl_cons]
      have hpos : (updateSeat s w.pos
          (fun p => { p with stack := quantize2 (p.stack + win) })).seats.map
            (·.pos) = s.seats.map (·.pos) := by
        simp only [updateSeat]
        apply updateFirstSeat_map_invar
        intro p
        rfl
      have h1 := ih (updateSeat s w.pos
          (fun p => { p with stack := quantize2 (p.stack + win) })) ?memrest
      case memrest =>
        intro x hx
        rw [hpos]
        exact h x (List.mem_cons_of_mem _ hx)
      have h2 : (s.seats.map (·.stack)).sum + (win - 1/200)
          ≤ ((updateSeat s w.pos
            (fun p => { p with stack := quantize2 (p.stack + win) })).seats.map
              (·.stack)).sum := by
        simp only [updateSeat]
        refine updateFirstSeat_sum_ge w.pos _ (fun p => p.stack) (win - 1/200)
          ?_ s.seats (h w (List.mem_cons_self _ _))
        intro p
        have := quantize2_ge (p.stack + win)
        exact le_trans (by linarith) this
      refine le_trans ?_ h1
      simp only [List.length_cons]
      push_cast
      linarith

lemma totalChips_showdown_single (deck : List Card) (s : GameState) (w : Seat)
    (hact : activeSeats s = [w]) :
    totalChips (showdown deck s) = totalChips s := by
  simp only [showdown, hact]
  have hc : ([w] : List Seat).length = 1 := by simp
  rw [if_pos hc]
  rw [totalChips_checkAndStart, totalChips_autoReady]
  have hw : w ∈ s.seats := by
    have hmem : w ∈ activeSeats s := by
      rw [hact]; exact List.mem_cons_self _ _
    exact List.mem_of_mem_filter hmem
  have hpos : w.pos ∈ s.seats.map (·.pos) := List.mem_map.mpr ⟨w, hw, rfl⟩
  unfold totalChips
  simp only [(saveHandHistory_frame _ _).1, updateSeat]
  rw [updateFirstSeat_sum_add w.pos _ (fun p => p.stack) s.game.pot
    (fun p => rfl) s.seats hpos]
  ring

lemma totalChips_showdown_multi (deck : List Card) (s : GameState)
    (hlen : ¬(activeSeats s).length = 1) :
    totalChips s - ((activeSeats s).length : Money) * (1/200)
        ≤ totalChips (showdown deck s) ∧
      totalChips (showdown deck s)
        ≤ totalChips s + ((activeSeats s).length : Money) * (1/200) := by
  have h0 : (0:Money) ≤ ((activeSeats s).length : Money) * (1/200) := by
    positivity
  simp only [showdown]
  rw [if_neg hlen]
  split
  · exact ⟨by linarith, by linarith⟩
  · rename_i e es heq
    rw [totalChips_checkAndStart, totalChips_autoReady]
    set evs := (activeSeats s).map (fun p =>
      (evaluateHand (p.cards ++ s.game.communityCards), p)) with hevs
    set r := es.foldl (fun b x => if keyBetter x.1 b.1 then x else b) e
      with hrdef
    set ws := (evs.filter (fun x => decide (x.1 = r.1))).map (·.2) with hws
    have hmem : ∀ w ∈ ws, w.pos ∈ s.seats.map (·.pos) := by
      intro w hw
      rw [hws] at hw
      rcases List.mem_map.mp hw with ⟨x, hx, hxe⟩
      have h1 : x ∈ evs := List.mem_of_mem_filter hx
      rw [hevs] at h1
      rcases List.mem_map.mp h1 with ⟨p, hp, hpe⟩
      have hps : p ∈ s.seats := List.mem_of_mem_filter hp
      have hx2 : x.2 = p := by rw [← hpe]
      rw [← hxe, hx2]
      exact List.mem_map.mpr ⟨p, hps, rfl⟩
    have hrmem : r ∈ evs := by
      rw [heq]
      exact foldl_pick_mem (fun x b => keyBetter x.1 b.1) es e
    have hne : ws.length ≠ 0 := by
      have hf : r ∈ evs.filter (fun x => decide (x.1 = r.1)) :=
        List.mem_filter.mpr ⟨hrmem, by simp⟩
      rw [hws, List.length_map]
      exact Nat.pos_iff_ne_zero.mp
        (List.length_pos.mpr (List.ne_nil_of_mem hf))
    have hnq : (ws.length : Money) ≠ 0 := Nat.cast_ne_zero.mpr hne
    have hmle : ws.length ≤ (activeSeats s).length := by
      calc ws.length = (evs.filter (fun x => decide (x.1 = r.1))).length := by
            rw [hws, List.length_map]
        _ ≤ evs.length := List.length_filter_le _ _
        _ = (activeSeats s).length := by rw [hevs, List.length_map]
    have hcast : ((ws.length : Nat) : Money)
        ≤ (((activeSeats s).length : Nat) : Money) := by
      exact_mod_cast hmle
    have hub := creditFold_sum_le (s.game.pot / (ws.length : Money)) ws s hmem
    have hlb := creditFold_sum_ge (s.game.pot / (ws.length : Money)) ws s hmem
    have hcancel : (ws.length : Money) * (s.game.pot / (ws.length : Money))
        = s.game.pot := by
      rw [mul_comm]
      exact div_mul_cancel₀ _ hnq
    unfold totalChips
    simp only [(saveHandHistory_frame _ _).1]
    constructor
    · nlinarith [hlb, hcancel, hcast]
    · nlinarith [hub, hcancel, hcast]

lemma totalChips_showdown_bound (deck : List Card) (s : GameState) :
    totalChips s - ((activeSeats s).length : Money) * (1/200)
        ≤ totalChips (showdown deck s) ∧
      totalChips (showdown deck s)
        ≤ totalChips s + ((activeSeats s).length : Money) * (1/200) := by
  by_cases hlen : (activeSeats s).length = 1
  · have h0 : (0:Money) ≤ ((activeSeats s).length : Money) * (1/200) := by
      positivity
    obtain ⟨w, hw⟩ := List.length_eq_one.mp hlen
    rw [totalChips_showdown_single deck s w hw]
    exact ⟨by linarith, by linarith⟩
  · exact totalChips_showdown_multi deck s hlen

lemma totalChips_showdown_bound_of (deck : List Card) (u : GameState)
    (b : Money) (m : Nat) (hb : totalChips u = b)
    (hm : (activeSeats u).length = m) :
    b - (m : Money) * (1/200) ≤ totalChips (showdown deck u) ∧
      totalChips (showdown deck u) ≤ b + (m : Money) * (1/200) := by
  obtain ⟨h1, h2⟩ := totalChips_showdown_bound deck u
  rw [hb, hm] at h1 h2
  exact ⟨h1, h2⟩

lemma bounds_of_totalChips_eq (x : GameState) (b : Money) (m : Nat)
    (hb : totalChips x = b) :
    b - (m : Money) * (1/200) ≤ totalChips x ∧
      totalChips x ≤ b + (m : Money) * (1/200) := by
  have h0 : (0:Money) ≤ (m : Money) * (1/200) := by positivity
  exact ⟨by linarith, by linarith⟩

lemma totalChips_reset (s : GameState) :
    totalChips (resetActiveBets s) = totalChips s :=
  totalChips_eq_of (resetActiveBets_stacks s) rfl

lemma totalChips_setFirstActor (s : GameState) :
    totalChips (setFirstActorAfterDealer s) = totalChips s := by
  simp only [setFirstActorAfterDealer]
  split <;> rfl

lemma filter_map_commute (F : Seat → Seat) (pr : Seat → Bool)
    (hF : ∀ p, pr (F p) = pr p) :
    ∀ l : List Seat, (l.map F).filter pr = (l.filter pr).map F := by
  intro l
  induction l with
  | nil => rfl
  | cons p rest ih =>
      rw [List.map_cons, List.filter_cons, List.filter_cons, hF p]
      by_cases hp : pr p = true
      · simp only [hp, if_true, ite_true, List.map_cons, ih]
      · simp only [Bool.of_not_eq_true hp, Bool.false_eq_true, if_false,
          ite_false, ih]

lemma activeSeats_collect (t : GameState) :
    activeSeats (collectBetsToPot t)
      = (activeSeats t).map (fun q =>
          if !q.cashedOut && decide (0 < q.currentBet) then
            { q with stack := q.stack - q.currentBet } else q) := by
  simp only [activeSeats, collectBetsToPot]
  exact filter_map_commute _ _ (fun q => by split <;> rfl) t.seats

lemma activeSeats_reset (y : GameState) :
    activeSeats (resetActiveBets y)
      = (activeSeats y).map (fun q =>
          if q.isActive && !q.cashedOut then
            { q with currentBet := 0 } else q) := by
  simp only [activeSeats, resetActiveBets]
  exact filter_map_commute _ _ (fun q => by split <;> rfl) y.seats

lemma activeSeats_collect_length (t : GameState) :
    (activeSeats (collectBetsToPot t)).length = (activeSeats t).length := by
  rw [activeSeats_collect, List.length_map]

lemma activeSeats_reset_length (y : GameState) :
    (activeSeats (resetActiveBets y)).length = (activeSeats y).length := by
  rw [activeSeats_reset, List.length_map]

lemma totalChips_moveToNextPhase_bound (deck : List Card) (s : GameState) :
    totalChips s - ((activeSeats s).length : Money) * (1/200)
        ≤ totalChips (moveToNextPhase deck s) ∧
      totalChips (moveToNextPhase deck s)
        ≤ totalChips s + ((activeSeats s).length : Money) * (1/200) := by
  simp only [moveToNextPhase]
  split
  · refine totalChips_showdown_bound_of deck _ _ _ ?_ ?_
    · show totalChips (collectBetsToPot s) = totalChips s
      exact totalChips_collect s
    · show (activeSeats (collectBetsToPot s)).length = (activeSeats s).length
      exact activeSeats_collect_length s
  · split
    · split
      · refine bounds_of_totalChips_eq _ _ _ ?_
        show totalChips (resetActiveBets (collectBetsToPot s)) = totalChips s
        rw [totalChips_reset, totalChips_collect]
      · refine bounds_of_totalChips_eq _ _ _ ?_
        show totalChips (resetActiveBets (collectBetsToPot s)) = totalChips s
        rw [totalChips_reset, totalChips_collect]
      · refine bounds_of_totalChips_eq _ _ _ ?_
        show totalChips (resetActiveBets (collectBetsToPot s)) = totalChips s
        rw [totalChips_reset, totalChips_collect]
      · refine totalChips_showdown_bound_of deck _ _ _ ?_ ?_
        · show totalChips (resetActiveBets (collectBetsToPot s)) = totalChips s
          rw [totalChips_reset, totalChips_collect]
        · show (activeSeats (resetActiveBets (collectBetsToPot s))).length
              = (activeSeats s).length
          rw [activeSeats_reset_length, activeSeats_collect_length]
      · refine bounds_of_totalChips_eq _ _ _ ?_
        show totalChips (resetActiveBets (collectBetsToPot s)) = totalChips s
        rw [totalChips_reset, totalChips_collect]
    · rw [totalChips_setFirstActor]
      split
      · refine bounds_of_totalChips_eq _ _ _ ?_
        show totalChips (resetActiveBets (collectBetsToPot s)) = totalChips s
        rw [totalChips_reset, totalChips_collect]
      · refine bounds_of_totalChips_eq _ _ _ ?_
        show totalChips (resetActiveBets (collectBetsToPot s)) = totalChips s
        rw [totalChips_reset, totalChips_collect]
      · refine bounds_of_totalChips_eq _ _ _ ?_
        show totalChips (resetActiveBets (collectBetsToPot s)) = totalChips s
        rw [totalChips_reset, totalChips_collect]
      · refine totalChips_showdown_bound_of deck _ _ _ ?_ ?_
        · show totalChips (resetActiveBets (collectBetsToPot s)) = totalChips s
          rw [totalChips_reset, totalChips_collect]
        · show (activeSeats (resetActiveBets (collectBetsToPot s))).length
              = (activeSeats s).length
          rw [activeSeats_reset_length, activeSeats_collect_length]
      · refine bounds_of_totalChips_eq _ _ _ ?_
        show totalChips (resetActiveBets (collectBetsToPot s)) = totalChips s
        rw [totalChips_reset, totalChips_collect]

lemma totalChips_advance_bound (deck : List Card) (s : GameState) :
    totalChips s - ((activeSeats s).length : Money) * (1/200)
        ≤ totalChips (advanceGame deck s) ∧
      totalChips (advanceGame deck s)
        ≤ totalChips s + ((activeSeats s).length : Money) * (1/200) := by
  simp only [advanceGame]
  split
  · exact totalChips_moveToNextPhase_bound deck s
  · split
    · exact totalChips_moveToNextPhase_bound deck s
    · refine bounds_of_totalChips_eq _ _ _ ?_
      (repeat' split) <;> rfl

lemma totalChips_handleFold (s : GameState) (p : Seat) :
    totalChips (handleFold s p) = totalChips s := by
  refine totalChips_eq_of ?_ rfl
  simp only [handleFold, updateSeat]
  apply updateFirstSeat_map_invar
  intro q
  rfl

lemma totalChips_handleCall (s : GameState) (p : Seat) :
    totalChips (handleCall s p).2 = totalChips s := by
  refine totalChips_eq_of ?_ rfl
  simp only [handleCall, updateSeat]
  apply updateFirstSeat_map_invar
  intro q
  rfl

lemma totalChips_handleBet (s : GameState) (p : Seat) (a : Money) :
    totalChips (handleBet s p a).2 = totalChips s := by
  simp only [handleBet]
  split
  · rfl
  · split
    · rfl
    · refine totalChips_eq_of ?_ rfl
      simp only [updateSeat]
      apply updateFirstSeat_map_invar
      intro q
      rfl

lemma totalChips_handleRaise (s : GameState) (p : Seat) (a : Money) :
    totalChips (handleRaise s p a).2 = totalChips s := by
  simp only [handleRaise]
  split
  · rfl
  · split
    · rfl
    · refine totalChips_eq_of ?_ rfl
      simp only [updateSeat]
      apply updateFirstSeat_map_invar
      intro q
      rfl

lemma totalChips_core (s : GameState) (pid : Nat) (a : ActionType)
    (amt : Money) : totalChips (processActionCore s pid a amt).2 = totalChips s := by
  unfold processActionCore
  split
  · rfl
  · split
    · rfl
    · split
      · rfl
      · rename_i p hfind
        split
        · exact totalChips_handleFold s p
        · split
          · rfl
          · rfl
        · exact totalChips_handleCall s p
        · split
          · rename_i e1 s1 hbet
            have h := totalChips_handleBet s p amt
            rw [hbet] at h
            exact h
          · rename_i s1 hbet
            have h := totalChips_handleBet s p amt
            rw [hbet] at h
            exact h
        · split
          · rename_i e1 s1 hraise
            have h := totalChips_handleRaise s p amt
            rw [hraise] at h
            exact h
          · rename_i s1 hraise
            have h := totalChips_handleRaise s p amt
            rw [hraise] at h
            exact h
        · rfl

lemma updateFirstSeat_length (pos : Nat) (f : Seat → Seat) :
    ∀ l : List Seat, (updateFirstSeat pos f l).length = l.length := by
  intro l
  induction l with
  | nil => rfl
  | cons a rest ih => by_cases h : a.pos = pos <;> simp [updateFirstSeat, h, ih]

lemma handleBet_seats_length (s : GameState) (p : Seat) (a : Money) :
    (handleBet s p a).2.seats.length = s.seats.length := by
  simp only [handleBet]
  split
  · rfl
  · split
    · rfl
    · simp only [updateSeat]
      exact updateFirstSeat_length _ _ _

lemma handleRaise_seats_length (s : GameState) (p : Seat) (a : Money) :
    (handleRaise s p a).2.seats.length = s.seats.length := by
  simp only [handleRaise]
  split
  · rfl
  · split
    · rfl
    · simp only [updateSeat]
      exact updateFirstSeat_length _ _ _

lemma core_seats_length (s : GameState) (pid : Nat) (a : ActionType)
    (amt : Money) :
    (processActionCore s pid a amt).2.seats.length = s.seats.length := by
  unfold processActionCore
  split
  · rfl
  · split
    · rfl
    · split
      · rfl
      · rename_i p hfind
        split
        · exact updateFirstSeat_length _ _ _
        · split
          · rfl
          · rfl
        · exact updateFirstSeat_length _ _ _
        · split
          · rename_i e1 s1 hbet
            have h := handleBet_seats_length s p amt
            rw [hbet] at h
            exact h
          · rename_i s1 hbet
            have h := handleBet_seats_length s p amt
            rw [hbet] at h
            exact h
        · split
          · rename_i e1 s1 hraise
            have h := handleRaise_seats_length s p amt
            rw [hraise] at h
            exact h
          · rename_i s1 hraise
            have h := handleRaise_seats_length s p amt
            rw [hraise] at h
            exact h
        · rfl

lemma totalChips_processActionF_bound (deck : List Card) (s : GameState)
    (pid : Nat) (a : ActionType) (amt : Money) :
    totalChips s - (s.seats.length : Money) * (1/200)
        ≤ totalChips (processActionF deck s pid a amt).2 ∧
      totalChips (processActionF deck s pid a amt).2
        ≤ totalChips s + (s.seats.length : Money) * (1/200) := by
  have h0 : (0:Money) ≤ (s.seats.length : Money) * (1/200) := by positivity
  unfold processActionF
  split
  · rename_i e s1 hcore
    have h := totalChips_core s pid a amt
    rw [hcore] at h
    exact ⟨by linarith, by linarith⟩
  · rename_i s1 hcore
    have h := totalChips_core s pid a amt
    rw [hcore] at h
    have hsl := core_seats_length s pid a amt
    rw [hcore] at hsl
    have hsl1 : s1.seats.length = s.seats.length := hsl
    have hlen : (activeSeats s1).length ≤ s.seats.length := by
      have h1 : (activeSeats s1).length ≤ s1.seats.length :=
        List.length_filter_le _ _
      omega
    have hcast : ((activeSeats s1).length : Money)
        ≤ (s.seats.length : Money) := by exact_mod_cast hlen
    have hprod : ((activeSeats s1).length : Money) * (1/200)
        ≤ (s.seats.length : Money) * (1/200) :=
      mul_le_mul_of_nonneg_right hcast (by norm_num)
    obtain ⟨hb1, hb2⟩ := totalChips_advance_bound deck s1
    exact ⟨by linarith, by linarith⟩

lemma totalChips_startGame (d : Nat) (deck : List Card) (s s1 : GameState)
    (h : startGame d deck s = Except.ok s1) : totalChips s1 = totalChips s := by
  simp only [startGame] at h
  split at h
  · exact Except.noConfusion h
  · split at h
    · exact Except.noConfusion h
    · injection h with h2
      subst h2
      refine totalChips_eq_of ?_ ?_
      · simp only [setCurrentPlayer]
        rw [dealHoles_stacks]
        simp only [updateSeat]
        rw [updateFirstSeat_stacks, updateFirstSeat_stacks]
        · intro p; rfl
        · intro p; rfl
      · simp only [setCurrentPlayer]
        rw [dealHoles_game]
        rfl

lemma createGame_stacks (t : TableCfg) (bs : List (Nat × Money)) :
    (createGame t bs).seats.map (·.stack) = bs.map (·.2) := by
  simp only [createGame]
  rw [List.map_map]
  conv_rhs => rw [← List.enum_map_snd bs, List.map_map]
  rfl

/-! ### Claim theorems -/

/-- C1 (amended): the sum of all seats' stacks plus the game's pot (the
uncollected `current_bet` trackers are NOT added: under delayed collection
the stacks are not debited until the round ends, so those chips still sit
inside the stacks) is preserved exactly by game creation (where it equals
the chips bought in), by `start_game`, by action validation, handlers and
logging, by betting-round collection, by new-hand start, and by a
single-winner showdown award.  A multi-winner showdown split credits each
winner the 2-decimal Decimal quantization of `stack + pot/n`, so the total
may drift by up to half a cent per winner — the pot is not exactly paid
out (see the 3-way split in `C1_counterexample`) — and consequently a full
`process_action` (with the collection, showdown and auto-started next hand
it can trigger) moves the total by at most half a cent per seat, and only
through such a split. -/
theorem C1_chips_conserved :
    (∀ t bs, totalChips (createGame t bs) = (bs.map (·.2)).sum) ∧
    (∀ d deck s s1, startGame d deck s = Except.ok s1 →
      totalChips s1 = totalChips s) ∧
    (∀ s pid a amt,
      totalChips (processActionCore s pid a amt).2 = totalChips s) ∧
    (∀ s, totalChips (collectBetsToPot s) = totalChips s) ∧
    (∀ deck s, totalChips (startNewHand deck s) = totalChips s) ∧
    (∀ deck s w, activeSeats s = [w] →
      totalChips (showdown deck s) = totalChips s) ∧
    (∀ deck s,
      totalChips s - ((activeSeats s).length : Money) * (1/200)
          ≤ totalChips (showdown deck s) ∧
        totalChips (showdown deck s)
          ≤ totalChips s + ((activeSeats s).length : Money) * (1/200)) ∧
    (∀ deck s pid a amt,
      totalChips s - (s.seats.length : Money) * (1/200)
          ≤ totalChips (processActionF deck s pid a amt).2 ∧
        totalChips (processActionF deck s pid a amt).2
          ≤ totalChips s + (s.seats.length : Money) * (1/200)) := by
  refine ⟨?_, fun d deck s s1 h => totalChips_startGame d deck s s1 h,
    fun s pid a amt => totalChips_core s pid a amt,
    totalChips_collect, totalChips_startNewHand,
    fun deck s w hw => totalChips_showdown_single deck s w hw,
    fun deck s => totalChips_showdown_bound deck s,
    fun deck s pid a amt => totalChips_processActionF_bound deck s pid a amt⟩
  intro t bs
  unfold totalChips
  rw [createGame_stacks]
  simp [createGame]

/-- Witness for C1: a concrete heads-up `start_game` preserves the
stacks-plus-pot sum, and a concrete single-winner fold-out award does
too. -/
theorem C1_chips_conserved_witness :
    totalChips (startedOrSame 0 exDeck exHeadsUp) = totalChips exHeadsUp ∧
    totalChips (showdown exDeck exFoldOut) = totalChips exFoldOut :=
  ⟨C1_chips_conserved.2.1 0 exDeck exHeadsUp
      (startedOrSame 0 exDeck exHeadsUp) (by with_unfolding_all decide),
   C1_chips_conserved.2.2.2.2.2.1 exDeck exFoldOut (mkSeat 2 1 97 0 3 true)
      (by with_unfolding_all decide)⟩

set_option maxRecDepth 3000 in
/-- C1 counterexample: immediately after the heads-up `start_game` (blinds
1/2, stacks 100 and 100), the spec's sum `Σ stacks + Σ current_bet + pot`
is 203 while the chips bought in are 200 — the blinds are counted twice
because the stacks have not yet been debited.  Moreover even the
stacks-plus-pot sum is not exact through a split: a 3-way tie on a pot of
1.00 pays each winner the quantized 10 + 1/3 → 10.33, so the total drops
from 31.00 to 30.99 — one cent vanishes. -/
theorem C1_counterexample :
    startGame 0 exDeck exHeadsUp
      = Except.ok (startedOrSame 0 exDeck exHeadsUp) ∧
    boughtIn (startedOrSame 0 exDeck exHeadsUp) = 200 ∧
    claimedSum (startedOrSame 0 exDeck exHeadsUp) = 203 ∧
    totalChips exSplit3 = 31 ∧
    totalChips (showdown exDeck exSplit3) = 31 - 1/100 := by
  refine ⟨?_, ?_, ?_, ?_, ?_⟩
  · with_unfolding_all decide
  · with_unfolding_all decide
  · with_unfolding_all decide
  · with_unfolding_all decide
  · have hp2 : (showdown exDeck exSplit3).seats.map (·.stack)
        = [1033/100, 1033/100, 1033/100] := by
      with_unfolding_all decide
    have hp3 : (showdown exDeck exSplit3).game.pot = 0 := by
      with_unfolding_all decide
    unfold totalChips
    rw [hp2, hp3]
    norm_num [List.sum_cons, List.sum_nil]

/-- C7: heads-up blind post — blinds 1/2, two seats with stacks 100;
`start_game` succeeds and yields pot 0, game current bet 2, current bet 1
at the small-blind seat `(dealer+1) % 2` and 2 at the big-blind seat
`(dealer+2) % 2`, for both possible random dealer positions. -/
theorem C7_heads_up_blind_post :
    (startGame 0 exDeck exHeadsUp
        = Except.ok (startedOrSame 0 exDeck exHeadsUp) ∧
      (startedOrSame 0 exDeck exHeadsUp).game.pot = 0 ∧
      (startedOrSame 0 exDeck exHeadsUp).game.currentBet = 2 ∧
      (seatAt (startedOrSame 0 exDeck exHeadsUp) 1).map (·.currentBet)
        = some 1 ∧
      (seatAt (startedOrSame 0 exDeck exHeadsUp) 0).map (·.currentBet)
        = some 2) ∧
    (startGame 1 exDeck exHeadsUp
        = Except.ok (startedOrSame 1 exDeck exHeadsUp) ∧
      (startedOrSame 1 exDeck exHeadsUp).game.pot = 0 ∧
      (startedOrSame 1 exDeck exHeadsUp).game.currentBet = 2 ∧
      (seatAt (startedOrSame 1 exDeck exHeadsUp) 0).map (·.currentBet)
        = some 1 ∧
      (seatAt (startedOrSame 1 exDeck exHeadsUp) 1).map (·.currentBet)
        = some 2) := by
  with_unfolding_all decide

lemma handleFold_stacks (s : GameState) (p : Seat) :
    (handleFold s p).seats.map (·.stack) = s.seats.map (·.stack) := by
  simp only [handleFold, updateSeat]
  apply updateFirstSeat_map_invar
  intro q
  rfl

lemma handleCall_stacks (s : GameState) (p : Seat) :
    (handleCall s p).2.seats.map (·.stack) = s.seats.map (·.stack) := by
  simp only [handleCall, updateSeat]
  apply updateFirstSeat_map_invar
  intro q
  rfl

lemma handleBet_frame (s : GameState) (p : Seat) (a : Money) :
    (handleBet s p a).2.seats.map (·.stack) = s.seats.map (·.stack) ∧
    (handleBet s p a).2.game.pot = s.game.pot := by
  simp only [handleBet]
  split
  · exact ⟨rfl, rfl⟩
  · split
    · exact ⟨rfl, rfl⟩
    · constructor
      · simp only [updateSeat]
        apply updateFirstSeat_map_invar
        intro q
        rfl
      · rfl

lemma handleRaise_frame (s : GameState) (p : Seat) (a : Money) :
    (handleRaise s p a).2.seats.map (·.stack) = s.seats.map (·.stack) ∧
    (handleRaise s p a).2.game.pot = s.game.pot := by
  simp only [handleRaise]
  split
  · exact ⟨rfl, rfl⟩
  · split
    · exact ⟨rfl, rfl⟩
    · constructor
      · simp only [updateSeat]
        apply updateFirstSeat_map_invar
        intro q
        rfl
      · rfl

lemma core_frame (s : GameState) (pid : Nat) (a : ActionType) (amt : Money) :
    (processActionCore s pid a amt).2.seats.map (·.stack)
      = s.seats.map (·.stack) ∧
    (processActionCore s pid a amt).2.game.pot = s.game.pot := by
  unfold processActionCore
  split
  · exact ⟨rfl, rfl⟩
  · split
    · exact ⟨rfl, rfl⟩
    · split
      · exact ⟨rfl, rfl⟩
      · rename_i p hfind
        split
        · exact ⟨handleFold_stacks s p, rfl⟩
        · split
          · exact ⟨rfl, rfl⟩
          · exact ⟨rfl, rfl⟩
        · exact ⟨handleCall_stacks s p, rfl⟩
        · split
          · rename_i e1 s1 hbet
            have h := handleBet_frame s p amt
            rw [hbet] at h
            exact h
          · rename_i s1 hbet
            have h := handleBet_frame s p amt
            rw [hbet] at h
            exact h
        · split
          · rename_i e1 s1 hraise
            have h := handleRaise_frame s p amt
            rw [hraise] at h
            exact h
          · rename_i s1 hraise
            have h := handleRaise_frame s p amt
            rw [hraise] at h
            exact h
        · exact ⟨rfl, rfl⟩

lemma find?_updateFirstSeat_ne (pos pos' : Nat) (f : Seat → Seat)
    (hf : ∀ p, (f p).pos = p.pos) (h : pos' ≠ pos) :
    ∀ l : List Seat, (updateFirstSeat pos f l).find? (fun q => q.pos == pos')
      = l.find? (fun q => q.pos == pos') := by
  intro l
  induction l with
  | nil => rfl
  | cons p rest ih =>
      by_cases hp : p.pos = pos
      · have h1 : ((f p).pos == pos') = false := by
          rw [hf p, hp]
          exact beq_false_of_ne (Ne.symm h)
        have h2 : (p.pos == pos') = false := by
          rw [hp]
          exact beq_false_of_ne (Ne.symm h)
        simp only [updateFirstSeat, if_pos hp]
        rw [List.find?_cons, List.find?_cons, h1, h2]
      · simp only [updateFirstSeat, if_neg hp]
        rw [List.find?_cons, List.find?_cons]
        split
        · rfl
        · exact ih

lemma seatAt_updateSeat_ne (s : GameState) (pos pos' : Nat) (f : Seat → Seat)
    (hf : ∀ p, (f p).pos = p.pos) (h : pos' ≠ pos) :
    seatAt (updateSeat s pos f) pos' = seatAt s pos' := by
  simp only [seatAt, updateSeat]
  exact find?_updateFirstSeat_ne pos pos' f hf h s.seats

lemma handleBet_other_seats (s : GameState) (p : Seat) (a : Money)
    (pos' : Nat) (hne : pos' ≠ p.pos) :
    seatAt (handleBet s p a).2 pos' = seatAt s pos' := by
  simp only [handleBet]
  split
  · rfl
  · split
    · rfl
    · exact seatAt_updateSeat_ne s p.pos pos' _ (fun q => rfl) hne

lemma handleRaise_other_seats (s : GameState) (p : Seat) (a : Money)
    (pos' : Nat) (hne : pos' ≠ p.pos) :
    seatAt (handleRaise s p a).2 pos' = seatAt s pos' := by
  simp only [handleRaise]
  split
  · rfl
  · split
    · rfl
    · exact seatAt_updateSeat_ne s p.pos pos' _ (fun q => rfl) hne

lemma core_other_seats (s : GameState) (pid : Nat) (a : ActionType)
    (amt : Money) (p : Seat) (hfind : findSeatPid s pid = some p)
    (pos' : Nat) (hne : pos' ≠ p.pos) :
    seatAt (processActionCore s pid a amt).2 pos' = seatAt s pos' := by
  unfold processActionCore
  split
  · rfl
  · split
    · rfl
    · simp only [hfind]
      split
      · exact seatAt_updateSeat_ne s p.pos pos'
          (fun q => { q with isActive := false }) (fun q => rfl) hne
      · split
        · rfl
        · rfl
      · exact seatAt_updateSeat_ne s p.pos pos' _ (fun q => rfl) hne
      · split
        · rename_i e1 s1 hbet
          have h := handleBet_other_seats s p amt pos' hne
          rw [hbet] at h
          exact h
        · rename_i s1 hbet
          have h := handleBet_other_seats s p amt pos' hne
          rw [hbet] at h
          exact h
      · split
        · rename_i e1 s1 hraise
          have h := handleRaise_other_seats s p amt pos' hne
          rw [hraise] at h
          exact h
        · rename_i s1 hraise
          have h := handleRaise_other_seats s p amt pos' hne
          rw [hraise] at h
          exact h
      · rfl

lemma filter_pos_currentBet_sum (l : List Seat)
    (h : ∀ p ∈ l, 0 ≤ p.currentBet) :
    ((l.filter (fun p => !p.cashedOut && decide (0 < p.currentBet))).map
      (·.currentBet)).sum
      = ((l.filter (fun p => !p.cashedOut)).map (·.currentBet)).sum := by
  induction l with
  | nil => rfl
  | cons p rest ih =>
      have hp := h p (List.mem_cons_self _ _)
      have hrest := fun q hq => h q (List.mem_cons_of_mem _ hq)
      by_cases h1 : (!p.cashedOut) = true
      · by_cases h2 : (0 < p.currentBet)
        · simp [List.filter_cons, h1, h2, ih hrest]
        · have hz : p.currentBet = 0 := le_antisymm (not_lt.mp h2) hp
          simp [List.filter_cons, h1, h2, ih hrest, hz]
      · simp [List.filter_cons, h1, ih hrest]

lemma advance_frame_of_incomplete (deck : List Card) (s : GameState)
    (h1 : (activeSeats s).length ≠ 1)
    (h2 : isBettingRoundComplete s (activeSeats s) = false) :
    (advanceGame deck s).seats = s.seats ∧
    (advanceGame deck s).game.pot = s.game.pot := by
  simp only [advanceGame]
  rw [if_neg h1, if_neg (by simp [h2])]
  (repeat' split) <;> exact ⟨rfl, rfl⟩

/-- C2: delayed pot collection — applying any single FOLD, CHECK, CALL, BET
or RAISE through the action-processing path leaves every seat's stack and
the game's pot untouched and mutates no seat other than the acting one;
stacks are debited and the pot credited only by `_collect_bets_to_pot`,
which runs when a betting round is judged complete and adds exactly the sum
of every non-cashed-out seat's current bet; an action that leaves the round
incomplete changes no stack and not the pot even after turn advancement. -/
theorem C2_delayed_pot_collection :
    (∀ s pid a amt,
      (processActionCore s pid a amt).2.seats.map (·.stack)
        = s.seats.map (·.stack) ∧
      (processActionCore s pid a amt).2.game.pot = s.game.pot) ∧
    (∀ s pid a amt p, findSeatPid s pid = some p → ∀ pos', pos' ≠ p.pos →
      seatAt (processActionCore s pid a amt).2 pos' = seatAt s pos') ∧
    (∀ s, (∀ p ∈ s.seats, 0 ≤ p.currentBet) →
      (collectBetsToPot s).game.pot = s.game.pot +
        ((s.seats.filter (fun p => !p.cashedOut)).map (·.currentBet)).sum) ∧
    (∀ deck s pid a amt,
      (processActionF deck s pid a amt).1 = none →
      (activeSeats (processActionCore s pid a amt).2).length ≠ 1 →
      isBettingRoundComplete (processActionCore s pid a amt).2
        (activeSeats (processActionCore s pid a amt).2) = false →
      (processActionF deck s pid a amt).2.seats.map (·.stack)
        = s.seats.map (·.stack) ∧
      (processActionF deck s pid a amt).2.game.pot = s.game.pot) := by
  refine ⟨fun s pid a amt => core_frame s pid a amt,
    fun s pid a amt p hf pos' hne => core_other_seats s pid a amt p hf pos' hne,
    ?_, ?_⟩
  · intro s h
    simp only [collectBetsToPot]
    rw [filter_pos_currentBet_sum s.seats h]
  · intro deck s pid a amt hok hlen hcmp
    unfold processActionF at hok ⊢
    rcases hcore : processActionCore s pid a amt with ⟨e, s1⟩
    rw [hcore] at hok hlen hcmp
    cases e with
    | some e1 => simp at hok
    | none =>
        have hadv := advance_frame_of_incomplete deck s1 hlen hcmp
        have hc := core_frame s pid a amt
        rw [hcore] at hc
        refine ⟨?_, ?_⟩
        · show (advanceGame deck s1).seats.map (·.stack)
            = s.seats.map (·.stack)
          rw [hadv.1]
          exact hc.1
        · show (advanceGame deck s1).game.pot = s.game.pot
          rw [hadv.2]
          exact hc.2

/-- Witness for C2: collecting the completed pre-flop round of the concrete
three-seat state credits the pot with the sum 5 of all non-cashed-out
current bets. -/
theorem C2_delayed_pot_collection_witness :
    (collectBetsToPot exStaleFold).game.pot = exStaleFold.game.pot +
      ((exStaleFold.seats.filter (fun p => !p.cashedOut)).map
        (·.currentBet)).sum :=
  C2_delayed_pot_collection.2.2.1 exStaleFold (by with_unfolding_all decide)

/-- C10: blind posting never touches stacks immediately — after a
successful `start_game` and after `_start_new_hand`, every seat's stack is
exactly what it was before the call; the blinds live only in the posted
seats' trackers. -/
theorem C10_blinds_leave_stacks (d : Nat) (deck : List Card)
    (s s1 : GameState) (h : startGame d deck s = Except.ok s1) :
    s1.seats.map (·.stack) = s.seats.map (·.stack) ∧
    (startNewHand deck s).seats.map (·.stack) = s.seats.map (·.stack) := by
  constructor
  · simp only [startGame] at h
    split at h
    · exact Except.noConfusion h
    · split at h
      · exact Except.noConfusion h
      · injection h with h2
        subst h2
        simp only [setCurrentPlayer]
        rw [dealHoles_stacks]
        simp only [updateSeat]
        rw [updateFirstSeat_stacks, updateFirstSeat_stacks]
        · intro p; rfl
        · intro p; rfl
  · simp only [startNewHand]
    split
    · rfl
    · simp only [updateSeat]
      rw [updateFirstSeat_stacks, updateFirstSeat_stacks, dealHoles_stacks]
      · apply map_map_stack_invar
        intro p
        by_cases hc1 : (decide (0 < p.stack) && !p.cashedOut) = true
        · simp [hc1]
        · by_cases hc2 : (!p.cashedOut) = true <;> simp [hc1, hc2] <;>
            split <;> rfl
      · intro p; rfl
      · intro p; rfl

/-- Witness for C10: the concrete heads-up start leaves both stacks at
100. -/
theorem C10_blinds_leave_stacks_witness :
    (startedOrSame 0 exDeck exHeadsUp).seats.map (·.stack)
      = exHeadsUp.seats.map (·.stack) :=
  (C10_blinds_leave_stacks 0 exDeck exHeadsUp
    (startedOrSame 0 exDeck exHeadsUp) (by with_unfolding_all decide)).1

/-- C3 (amended): with a live bet, `_handle_raise` rejects exactly the
requests whose total is below `2 × current_bet` — with no exception for a
seat whose stack caps its commitment below that threshold — and an
accepted raise caps the incremental contribution at the seat's remaining
stack, so the actually committed total may end up below the threshold
(all-in raise). -/
theorem C3_min_raise_law (s : GameState) (p : Seat) (amt : Money)
    (hcb : 0 < s.game.currentBet) :
    ((handleRaise s p amt).1 = some GameErr.raiseBelowMin ↔
      amt < s.game.currentBet * 2) ∧
    (s.game.currentBet * 2 ≤ amt →
      (handleRaise s p amt).1 = none ∧
      (handleRaise s p amt).2.game.currentBet
        = p.currentBet + min (amt - p.currentBet) p.stack ∧
      (handleRaise s p amt).2.seats = updateFirstSeat p.pos (fun q =>
        { q with currentBet := p.currentBet + min (amt - p.currentBet) p.stack,
                 totalBet := q.totalBet + min (amt - p.currentBet) p.stack })
        s.seats) := by
  have hne : ¬ s.game.currentBet = 0 := ne_of_gt hcb
  constructor
  · constructor
    · intro h
      by_contra hnlt
      unfold handleRaise at h
      rw [if_neg hne, if_neg hnlt] at h
      simp at h
    · intro hlt
      unfold handleRaise
      rw [if_neg hne, if_pos hlt]
  · intro hge
    have hnlt : ¬ amt < s.game.currentBet * 2 := not_lt.mpr hge
    unfold handleRaise
    rw [if_neg hne, if_neg hnlt]
    exact ⟨rfl, rfl, rfl⟩

/-- Witness for C3: raising to 20 against the live bet 10 is accepted. -/
theorem C3_min_raise_law_witness :
    (handleRaise exShortStack (exShortStack.seats.getD 0 default) 20).1
      = none :=
  ((C3_min_raise_law exShortStack (exShortStack.seats.getD 0 default) 20
      (by with_unfolding_all decide)).2 (by with_unfolding_all decide)).1

/-- C3 counterexample: facing current bet 10 with stack 5 and nothing yet
committed this round, the seat's whole-stack raise to 5 is below the
threshold 20, so by the claim this all-in raise must be accepted; the code
rejects it with the minimum-raise error. -/
theorem C3_counterexample :
    exShortStack.game.currentBet = 10 ∧
    (seatAt exShortStack 1).map (·.stack) = some 5 ∧
    (seatAt exShortStack 1).map (·.currentBet) = some 0 ∧
    (processActionF exDeck exShortStack 2 ActionType.RAISE 5).1
      = some GameErr.raiseBelowMin ∧
    (processActionF exDeck exShortStack 2 ActionType.RAISE 5).2
      = exShortStack := by
  refine ⟨?_, ?_, ?_, ?_, ?_⟩ <;> with_unfolding_all decide

lemma handleBet_err_frame (s : GameState) (p : Seat) (a : Money)
    (e : GameErr) (s1 : GameState) (h : handleBet s p a = (some e, s1)) :
    s1 = s := by
  simp only [handleBet] at h
  split at h
  · cases h; rfl
  · split at h
    · cases h; rfl
    · simp at h

lemma handleRaise_err_frame (s : GameState) (p : Seat) (a : Money)
    (e : GameErr) (s1 : GameState) (h : handleRaise s p a = (some e, s1)) :
    s1 = s := by
  simp only [handleRaise] at h
  split at h
  · cases h; rfl
  · split at h
    · cases h; rfl
    · simp at h

lemma core_err_frame (s : GameState) (pid : Nat) (a : ActionType)
    (amt : Money) (e : GameErr) (s1 : GameState)
    (h : processActionCore s pid a amt = (some e, s1)) : s1 = s := by
  unfold processActionCore at h
  split at h
  · cases h; rfl
  · split at h
    · cases h; rfl
    · split at h
      · cases h; rfl
      · rename_i p hfind
        split at h
        · simp at h
        · split at h
          · cases h; rfl
          · simp at h
        · simp at h
        · split at h
          · rename_i hbet
            cases h
            exact handleBet_err_frame _ _ _ _ _ hbet
          · simp at h
        · split at h
          · rename_i hraise
            cases h
            exact handleRaise_err_frame _ _ _ _ _ hraise
          · simp at h
        · cases h; rfl

/-- C4: whenever `process_action` rejects an action (game not PLAYING, not
the submitter's turn, seat not active, illegal CHECK/BET/RAISE, or an
unknown action kind), validation happened entirely before any mutation:
the state accompanying the raised error is exactly the input state, so no
action is ever partially applied. -/
theorem C4_action_atomicity (deck : List Card) (s : GameState) (pid : Nat)
    (a : ActionType) (amt : Money) (e : GameErr) (s1 : GameState)
    (h : processActionF deck s pid a amt = (some e, s1)) : s1 = s := by
  unfold processActionF at h
  split at h
  · rename_i hcore
    cases h
    exact core_err_frame _ _ _ _ _ _ hcore
  · simp at h

/-- Witness for C4: submitting a FOLD to the not-yet-started heads-up game
is rejected and leaves the state untouched. -/
theorem C4_action_atomicity_witness :
    (processActionF exDeck exHeadsUp 1 ActionType.FOLD 0).2 = exHeadsUp :=
  C4_action_atomicity exDeck exHeadsUp 1 ActionType.FOLD 0
    GameErr.notInProgress (processActionF exDeck exHeadsUp 1 ActionType.FOLD 0).2
    (by with_unfolding_all decide)

/-- C5: evaluating `_move_to_next_phase` at the failing input — a completed
PREFLOP round in which the small blind (seat 1, committed 1) has folded —
shows the claimed effects hold for the pot (5 collected), the zeroed game
bet, the three flop cards and the first actor after the dealer, but the
folded seat's `current_bet` stays 1 instead of being zeroed (only active
seats are reset), so the next collection debits that seat a second time:
stack 100 → 99 (correct) → 98 (double charge) while its total committed
this hand is only 1. -/
theorem C5_stale_bet_double_collection :
    (moveToNextPhase exDeck exStaleFold).game.phase = some Phase.FLOP ∧
    (moveToNextPhase exDeck exStaleFold).game.pot = 5 ∧
    (moveToNextPhase exDeck exStaleFold).game.currentBet = 0 ∧
    (moveToNextPhase exDeck exStaleFold).game.communityCards.length = 3 ∧
    (moveToNextPhase exDeck exStaleFold).game.currentPlayer = some 3 ∧
    (seatAt (moveToNextPhase exDeck exStaleFold) 0).map (·.currentBet)
      = some 0 ∧
    (seatAt (moveToNextPhase exDeck exStaleFold) 1).map (·.currentBet)
      = some 1 ∧
    (seatAt (moveToNextPhase exDeck exStaleFold) 1).map (·.totalBet)
      = some 1 ∧
    (seatAt (moveToNextPhase exDeck exStaleFold) 1).map (·.stack)
      = some 99 ∧
    (seatAt (collectBetsToPot (moveToNextPhase exDeck exStaleFold)) 1).map
      (·.stack) = some 98 := by
  refine ⟨?_, ?_, ?_, ?_, ?_, ?_, ?_, ?_, ?_, ?_⟩ <;> with_unfolding_all decide

/-- C6 (amended): `_handle_call` never rejects — the applied amount is
`min(current_bet − seat.current_bet, stack)`, which is 0 when there is
nothing to call — so once the generic turn/seat validations pass a CALL is
always accepted; the bot-facing valid-action list offers CALL exactly when
the call amount is positive AND the stack covers the whole of it, so an
all-in call for less is never offered there (though it is applied if
submitted). -/
theorem C6_call_semantics (s : GameState) (p : Seat) :
    (handleCall s p).1 = min (s.game.currentBet - p.currentBet) p.stack ∧
    (handleCall s p).2.seats = updateFirstSeat p.pos (fun q =>
      { q with
        currentBet := q.currentBet
          + min (s.game.currentBet - p.currentBet) p.stack,
        totalBet := q.totalBet
          + min (s.game.currentBet - p.currentBet) p.stack }) s.seats ∧
    (ActionType.CALL ∈ getValidActions s p ↔
      0 < s.game.currentBet - p.currentBet ∧
      s.game.currentBet - p.currentBet ≤ p.stack) ∧
    (∀ pid amt, s.game.status = GStatus.PLAYING →
      s.game.currentPlayer = some pid → findSeatPid s pid = some p →
      (processActionCore s pid ActionType.CALL amt).1 = none) := by
  refine ⟨rfl, rfl, ?_, ?_⟩
  · unfold getValidActions
    by_cases h1 : 0 < p.stack <;>
      by_cases h2 : s.game.currentBet - p.currentBet = 0 <;>
      by_cases h3 : 0 < s.game.currentBet - p.currentBet ∧
        s.game.currentBet - p.currentBet ≤ p.stack <;>
      by_cases h4 : s.game.currentBet = 0 ∧ 0 < p.stack <;>
      by_cases h5 : 0 < s.game.currentBet ∧
        s.game.currentBet - p.currentBet < p.stack <;>
      simp [h1, h2, h3, h4, h5]
  · intro pid amt hst hcp hfind
    unfold processActionCore
    rw [if_neg (by simp [hst]), if_neg (by simp [hcp])]
    simp only [hfind]

/-- Witness for C6: the short-stacked seat's CALL goes through the action
path without any rejection. -/
theorem C6_call_semantics_witness :
    (processActionCore exShortStack 2 ActionType.CALL 0).1 = none :=
  (C6_call_semantics exShortStack (mkSeat 2 1 5 0 2 true)).2.2.2 2 0
    (by with_unfolding_all decide) (by with_unfolding_all decide)
    (by with_unfolding_all decide)

/-- C6 counterexample: (a) with nothing to call (call amount 0) a CALL is
nevertheless accepted by the action path, applying amount 0; (b) facing a
call of 10 with stack 5 (positive chips), CALL is absent from the
valid-action list even though the claim declares an all-in call for less
legal. -/
theorem C6_counterexample :
    (exNothingToCall.game.currentBet
        - ((seatAt exNothingToCall 1).getD default).currentBet = 0 ∧
      (processActionF exDeck exNothingToCall 2 ActionType.CALL 0).1
        = none) ∧
    (0 < exShortStack.game.currentBet
        - ((seatAt exShortStack 1).getD default).currentBet ∧
      0 < ((seatAt exShortStack 1).getD default).stack ∧
      ActionType.CALL ∉ getValidActions exShortStack
        ((seatAt exShortStack 1).getD default)) := by
  refine ⟨⟨?_, ?_⟩, ?_, ?_, ?_⟩ <;> with_unfolding_all decide

lemma mem_updateFirstSeat_of_ne (pos : Nat) (f : Seat → Seat) :
    ∀ (l : List Seat) (q : Seat), q ∈ l → q.pos ≠ pos →
      q ∈ updateFirstSeat pos f l := by
  intro l
  induction l with
  | nil => intro q hq _; cases hq
  | cons p rest ih =>
      intro q hq hqp
      rcases List.mem_cons.mp hq with h | h
      · subst h
        simp [updateFirstSeat, if_neg hqp]
      · by_cases hp : p.pos = pos
        · simp only [updateFirstSeat, if_pos hp]
          exact List.mem_cons_of_mem _ h
        · simp only [updateFirstSeat, if_neg hp]
          exact List.mem_cons_of_mem _ (ih q h hqp)

lemma checkAndStart_blocked (deck : List Card) (s : GameState)
    (hex : ∃ q ∈ s.seats, (!q.cashedOut && decide (0 < q.stack)) = true ∧
      q.readyForNextHand = false) :
    checkAndStartNextHand deck s = s := by
  rcases hex with ⟨q, hq, hqe, hqr⟩
  simp only [checkAndStartNextHand]
  have hall : (s.seats.filter
      (fun p => !p.cashedOut && decide (0 < p.stack))).all
        (·.readyForNextHand) = false := by
    rw [List.all_eq_false]
    exact ⟨q, List.mem_filter.mpr ⟨hq, hqe⟩, by simp [hqr]⟩
  rw [hall]
  simp

lemma find?_updateFirstSeat_pos_stack (pos : Nat) (f : Seat → Seat)
    (hf : ∀ p, (f p).pos = p.pos) :
    ∀ l : List Seat,
      ((updateFirstSeat pos f l).find? (fun q => q.pos == pos)).map (·.stack)
        = (l.find? (fun q => q.pos == pos)).map (fun p => (f p).stack) := by
  intro l
  induction l with
  | nil => rfl
  | cons p rest ih =>
      by_cases hp : p.pos = pos
      · have h1 : ((f p).pos == pos) = true := by rw [hf p, hp]; simp
        have h2 : (p.pos == pos) = true := by rw [hp]; simp
        simp only [updateFirstSeat, if_pos hp]
        rw [List.find?_cons, List.find?_cons, h1, h2]
        rfl
      · have h2 : (p.pos == pos) = false := beq_false_of_ne hp
        simp only [updateFirstSeat, if_neg hp]
        rw [List.find?_cons, List.find?_cons, h2]
        exact ih

lemma find?_map_pos_g (F : Seat → Seat) (g : Seat → Money)
    (hFpos : ∀ p, (F p).pos = p.pos) (hFg : ∀ p, g (F p) = g p) :
    ∀ (l : List Seat) (pos : Nat),
      ((l.map F).find? (fun q => q.pos == pos)).map g
        = (l.find? (fun q => q.pos == pos)).map g := by
  intro l
  induction l with
  | nil => intro pos; rfl
  | cons p rest ih =>
      intro pos
      rw [List.map_cons, List.find?_cons, List.find?_cons]
      by_cases hp : (p.pos == pos) = true
      · have h1 : ((F p).pos == pos) = true := by rw [hFpos p]; exact hp
        rw [hp, h1]
        simp [hFg p]
      · have hp' : (p.pos == pos) = false := Bool.of_not_eq_true hp
        have h1 : ((F p).pos == pos) = false := by rw [hFpos p]; exact hp'
        rw [hp', h1]
        exact ih pos

lemma showdown_single_effects (deck : List Card) (s : GameState) (w : Seat)
    (hact : activeSeats s = [w])
    (hdup : s.histories.any
      (fun h => h.handNumber == s.game.handCount + 1) = false)
    (q : Seat) (hq : q ∈ s.seats) (hqw : q.pos ≠ w.pos)
    (hqe : (!q.cashedOut && decide (0 < q.stack)) = true)
    (hqb : q.isBot = false) (hqr : q.readyForNextHand = false) :
    (seatAt (showdown deck s) w.pos).map (·.stack)
      = (seatAt s w.pos).map (fun p => p.stack + s.game.pot) ∧
    (showdown deck s).game.pot = 0 ∧
    (showdown deck s).game.phase = some Phase.WAITING_FOR_PLAYERS ∧
    (showdown deck s).histories
      = { handNumber := s.game.handCount + 1, potAmount := s.game.pot,
          finalPhase := s.game.phase } :: s.histories := by
  have hsave : ∀ s2 : GameState, s2.game.winnerInfo = some [w.pid] →
      s2.histories = s.histories → s2.game.handCount = s.game.handCount →
      s2.game.phase = s.game.phase →
      saveHandHistory s2 s.game.pot
        = { s2 with
            histories :=
              (⟨s.game.handCount + 1, s.game.pot, s.game.phase⟩ : HandRecord)
                :: s.histories,
            game := { s2.game with handCount := s.game.handCount + 1 } } := by
    intro s2 hwi hhist hhc hph
    unfold saveHandHistory
    simp only [hwi]
    rw [hhist, hhc, hdup]
    simp [hhist, hhc, hph]
  simp only [showdown, hact]
  have hlen : ([w].length = 1) := rfl
  rw [if_pos hlen]
  rw [checkAndStart_blocked]
  · refine ⟨?_, rfl, rfl, ?_⟩
    · simp only [seatAt, autoReadyBots]
      rw [find?_map_pos_g _ (fun p => p.stack) (fun p => by split <;> rfl)
        (fun p => by split <;> rfl)]
      rw [(saveHandHistory_frame _ _).1]
      simp only [updateSeat]
      exact find?_updateFirstSeat_pos_stack w.pos
        (fun p => { p with stack := p.stack + s.game.pot }) (fun p => rfl)
        s.seats
    · show (saveHandHistory _ s.game.pot).histories = _
      rw [hsave]
      all_goals rfl
  · refine ⟨q, ?_, hqe, hqr⟩
    simp only [autoReadyBots]
    apply List.mem_map.mpr
    refine ⟨q, ?_, ?_⟩
    · rw [(saveHandHistory_frame _ _).1]
      exact mem_updateFirstSeat_of_ne w.pos _ s.seats q hq hqw
    · rw [if_neg (by simp [hqb])]

lemma activeSeats_eraseCards (s : GameState) :
    activeSeats (eraseCards s)
      = (activeSeats s).map (fun p => { p with cards := [] }) := by
  simp only [activeSeats, eraseCards]
  exact filter_map_commute (fun p => { p with cards := [] })
    (fun p => p.isActive && !p.cashedOut) (fun p => rfl) s.seats

/-- C8: single-winner fold-out — with exactly one active seat left, that
seat's stack is credited the entire pot, the hand-history row (carrying the
pre-reset pot amount) is appended before the pot is zeroed, and the phase
is set to WAITING_FOR_PLAYERS (a non-ready eligible human seat blocks the
automatic next hand).  The final conjunct re-runs the award on the same
state with every hole and community card erased and obtains the same
credited stack: no hand evaluation is involved. -/
theorem C8_single_winner_foldout (deck : List Card) (s : GameState) (w : Seat)
    (hact : activeSeats s = [w])
    (hdup : s.histories.any
      (fun h => h.handNumber == s.game.handCount + 1) = false)
    (q : Seat) (hq : q ∈ s.seats) (hqw : q.pos ≠ w.pos)
    (hqe : (!q.cashedOut && decide (0 < q.stack)) = true)
    (hqb : q.isBot = false) (hqr : q.readyForNextHand = false) :
    (seatAt (showdown deck s) w.pos).map (·.stack)
      = (seatAt s w.pos).map (fun p => p.stack + s.game.pot) ∧
    (showdown deck s).game.pot = 0 ∧
    (showdown deck s).game.phase = some Phase.WAITING_FOR_PLAYERS ∧
    (showdown deck s).histories
      = { handNumber := s.game.handCount + 1, potAmount := s.game.pot,
          finalPhase := s.game.phase } :: s.histories ∧
    (seatAt (showdown deck (eraseCards s)) w.pos).map (·.stack)
      = (seatAt s w.pos).map (fun p => p.stack + s.game.pot) := by
  have hmain := showdown_single_effects deck s w hact hdup q hq hqw hqe hqb hqr
  have hact' : activeSeats (eraseCards s) = [{ w with cards := [] }] := by
    rw [activeSeats_eraseCards, hact]
    rfl
  have herase := showdown_single_effects deck (eraseCards s)
    { w with cards := [] } hact' hdup { q with cards := [] }
    (List.mem_map.mpr ⟨q, hq, rfl⟩) hqw hqe hqb hqr
  refine ⟨hmain.1, hmain.2.1, hmain.2.2.1, hmain.2.2.2, ?_⟩
  rw [herase.1]
  exact find?_map_pos_g (fun p => { p with cards := [] })
    (fun p => p.stack + s.game.pot) (fun p => rfl) (fun p => rfl)
    s.seats w.pos

/-! ### Helper lemmas for the bot stall recovery analysis (C9) -/

lemma mem_updateFirstSeat_elim (pos : Nat) (f : Seat → Seat) :
    ∀ (l : List Seat) (q : Seat), q ∈ updateFirstSeat pos f l →
      q ∈ l ∨ ∃ r, r ∈ l ∧ r.pos = pos ∧ q = f r := by
  intro l
  induction l with
  | nil => intro q hq; cases hq
  | cons a rest ih =>
      intro q hq
      by_cases ha : a.pos = pos
      · simp only [updateFirstSeat, if_pos ha] at hq
        rcases List.mem_cons.mp hq with h | h
        · exact Or.inr ⟨a, List.mem_cons_self a rest, ha, h⟩
        · exact Or.inl (List.mem_cons_of_mem _ h)
      · simp only [updateFirstSeat, if_neg ha] at hq
        rcases List.mem_cons.mp hq with h | h
        · exact Or.inl (h ▸ List.mem_cons_self a rest)
        · rcases ih q h with h' | ⟨r, hr, hrpos, hqr⟩
          · exact Or.inl (List.mem_cons_of_mem _ h')
          · exact Or.inr ⟨r, List.mem_cons_of_mem _ hr, hrpos, hqr⟩

lemma mem_updateFirstSeat_pos_eq (pos : Nat) (f : Seat → Seat) :
    ∀ l : List Seat, (l.map (·.pos)).Nodup →
      ∀ q r0 : Seat, q ∈ updateFirstSeat pos f l → q.pos = pos →
        r0 ∈ l → r0.pos = pos → q = f r0 := by
  intro l
  induction l with
  | nil => intro _ q r0 hq; cases hq
  | cons a rest ih =>
      intro hnd q r0 hq hqpos hr0 hr0pos
      rw [List.map_cons, List.nodup_cons] at hnd
      obtain ⟨hna, hndr⟩ := hnd
      by_cases ha : a.pos = pos
      · have hr0a : r0 = a := by
          rcases List.mem_cons.mp hr0 with h | h
          · exact h
          · exact absurd (List.mem_map.mpr ⟨r0, h, hr0pos.trans ha.symm⟩) hna
        simp only [updateFirstSeat, if_pos ha] at hq
        rcases List.mem_cons.mp hq with h | h
        · rw [h, hr0a]
        · exact absurd (List.mem_map.mpr ⟨q, h, hqpos.trans ha.symm⟩) hna
      · have hr0r : r0 ∈ rest := by
          rcases List.mem_cons.mp hr0 with h | h
          · exact absurd (h ▸ hr0pos) ha
          · exact h
        simp only [updateFirstSeat, if_neg ha] at hq
        rcases List.mem_cons.mp hq with h | h
        · exact absurd (h ▸ hqpos) ha
        · exact ih hndr q r0 h hqpos hr0r hr0pos

lemma filter_updateFirstSeat_length_ge (pos : Nat) (f : Seat → Seat)
    (pr : Seat → Bool) :
    ∀ l : List Seat,
      (l.filter pr).length - 1
        ≤ ((updateFirstSeat pos f l).filter pr).length := by
  intro l
  induction l with
  | nil => simp [updateFirstSeat]
  | cons a rest ih =>
      by_cases ha : a.pos = pos
      · simp only [updateFirstSeat, if_pos ha, List.filter_cons]
        cases h1 : pr a <;> cases h2 : pr (f a) <;> simp <;> omega
      · simp only [updateFirstSeat, if_neg ha, List.filter_cons]
        cases h1 : pr a <;> simp <;> omega

lemma foldl_updateSeat_game (f : Seat → Seat) :
    ∀ (ws : List Seat) (t : GameState),
      (ws.foldl (fun st wp => updateSeat st wp.pos f) t).game = t.game := by
  intro ws
  induction ws with
  | nil => intro t; rfl
  | cons w rest ih => intro t; rw [List.foldl_cons]; exact ih _

lemma foldl_updateSeat_histories (f : Seat → Seat) :
    ∀ (ws : List Seat) (t : GameState),
      (ws.foldl (fun st wp => updateSeat st wp.pos f) t).histories
        = t.histories := by
  intro ws
  induction ws with
  | nil => intro t; rfl
  | cons w rest ih => intro t; rw [List.foldl_cons]; exact ih _

lemma saveHandHistory_handCount_succ (x : GameState) (m : Money)
    (hwi : x.game.winnerInfo.isSome = true)
    (hd : x.histories.any
      (fun h => h.handNumber == x.game.handCount + 1) = false) :
    (saveHandHistory x m).game.handCount = x.game.handCount + 1 := by
  unfold saveHandHistory
  split
  · rename_i heq
    rw [heq] at hwi
    simp at hwi
  · rw [if_neg (by simp [hd])]

lemma handCount_startNewHand_ge (deck : List Card) (x : GameState) :
    x.game.handCount ≤ (startNewHand deck x).game.handCount := by
  simp only [startNewHand]
  split
  · exact Nat.le_refl _
  · simp only [updateSeat]
    rw [dealHoles_game]
    exact Nat.le_succ _

lemma handCount_checkAndStart_ge (deck : List Card) (x : GameState) :
    x.game.handCount ≤ (checkAndStartNextHand deck x).game.handCount := by
  simp only [checkAndStartNextHand]
  split
  · refine le_trans ?_ (handCount_startNewHand_ge deck _)
    exact Nat.le_refl _
  · exact Nat.le_refl _

lemma handCount_after_award (deck : List Card) (x : GameState) (m : Money)
    (H : List HandRecord) (C : Nat)
    (hwi : x.game.winnerInfo.isSome = true)
    (hh : x.histories = H) (hc : x.game.handCount = C)
    (hd : H.any (fun h => h.handNumber == C + 1) = false) :
    C < (checkAndStartNextHand deck (autoReadyBots
        { saveHandHistory x m with
          game := { (saveHandHistory x m).game with
            pot := 0,
            phase := some Phase.WAITING_FOR_PLAYERS } })).game.handCount := by
  have hd' : x.histories.any
      (fun h => h.handNumber == x.game.handCount + 1) = false := by
    rw [hh, hc]; exact hd
  have hsc := saveHandHistory_handCount_succ x m hwi hd'
  have h1 : C < (autoReadyBots
      { saveHandHistory x m with
        game := { (saveHandHistory x m).game with
          pot := 0,
          phase := some Phase.WAITING_FOR_PLAYERS } }).game.handCount := by
    show C < (saveHandHistory x m).game.handCount
    rw [hsc, ← hc]
    exact Nat.lt_succ_self _
  exact lt_of_lt_of_le h1 (handCount_checkAndStart_ge deck _)

lemma handCount_after_award_wi (deck : List Card) (s1 : GameState)
    (L : List Nat) (m : Money) (H : List HandRecord) (C : Nat)
    (hh : s1.histories = H) (hc : s1.game.handCount = C)
    (hd : H.any (fun h => h.handNumber == C + 1) = false) :
    C < (checkAndStartNextHand deck (autoReadyBots
        { saveHandHistory
            { s1 with game := { s1.game with winnerInfo := some L } } m with
          game := { (saveHandHistory
              { s1 with
                game := { s1.game with winnerInfo := some L } } m).game with
            pot := 0,
            phase := some Phase.WAITING_FOR_PLAYERS } })).game.handCount :=
  handCount_after_award deck _ m H C rfl hh hc hd

lemma showdown_handCount_progress (deck : List Card) (u : GameState) (C : Nat)
    (hdup : u.histories.any
      (fun h => h.handNumber == u.game.handCount + 1) = false)
    (hne : activeSeats u ≠ [])
    (hcu : u.game.handCount = C) :
    C < (showdown deck u).game.handCount := by
  rw [← hcu]
  rcases List.exists_cons_of_ne_nil hne with ⟨a, as, hcons⟩
  simp only [showdown, hcons, List.map_cons]
  by_cases h1 : (a :: as).length = 1
  · rw [if_pos h1]
    exact handCount_after_award deck _ _ _ _ rfl rfl rfl hdup
  · rw [if_neg h1]
    exact handCount_after_award_wi deck _ _ _ _ _
      (foldl_updateSeat_histories _ _ _)
      (congrArg Game.handCount (foldl_updateSeat_game _ _ _)) hdup

lemma map_pid_of_preserve (F : Seat → Seat)
    (hF : ∀ q, (F q).pid = q.pid) :
    ∀ l : List Seat,
      (l.map F).map (fun q => q.pid) = l.map (fun q => q.pid) := by
  intro l
  induction l with
  | nil => rfl
  | cons a rest ih => simp only [List.map_cons, hF, ih]

lemma activeSeats_collect_pid (t : GameState) :
    (activeSeats (collectBetsToPot t)).map (fun q => q.pid)
      = (activeSeats t).map (fun q => q.pid) := by
  rw [activeSeats_collect]
  exact map_pid_of_preserve _ (fun q => by split <;> rfl) _

lemma activeSeats_reset_pid (y : GameState) :
    (activeSeats (resetActiveBets y)).map (fun q => q.pid)
      = (activeSeats y).map (fun q => q.pid) := by
  rw [activeSeats_reset]
  exact map_pid_of_preserve _ (fun q => by split <;> rfl) _

lemma setFirstActor_handCount (x : GameState) :
    (setFirstActorAfterDealer x).game.handCount = x.game.handCount := by
  simp only [setFirstActorAfterDealer]
  split
  · rfl
  · rfl

lemma setFirstActor_ne (x : GameState) (pid : Nat)
    (hnx : ∀ q ∈ activeSeats x, q.pid ≠ pid)
    (hlx : activeSeats x ≠ []) :
    (setFirstActorAfterDealer x).game.currentPlayer ≠ some pid := by
  simp only [setFirstActorAfterDealer]
  rcases hget :
      (activeSeats x)[(x.game.dealerPos + 1) % (activeSeats x).length]?
    with _ | q
  · exfalso
    rw [List.getElem?_eq_none_iff] at hget
    have hp : 0 < (activeSeats x).length := List.length_pos.mpr hlx
    exact absurd hget (Nat.not_le.mpr (Nat.mod_lt _ hp))
  · intro hcontra
    exact hnx q (List.getElem?_mem hget) (Option.some.inj hcontra)

lemma ite_actor_progress (t s4 : GameState) (pid : Nat)
    (hph4 : s4.game.phase ≠ some Phase.SHOWDOWN)
    (hseats : s4.seats = (resetActiveBets (collectBetsToPot t)).seats)
    (hny : ∀ q ∈ activeSeats (resetActiveBets (collectBetsToPot t)),
      q.pid ≠ pid)
    (hlx : activeSeats (resetActiveBets (collectBetsToPot t)) ≠ []) :
    (if s4.game.phase = some Phase.SHOWDOWN then s4
     else setFirstActorAfterDealer s4).game.currentPlayer ≠ some pid := by
  rw [if_neg hph4]
  have hact4 : activeSeats s4
      = activeSeats (resetActiveBets (collectBetsToPot t)) := by
    simp only [activeSeats]
    rw [hseats]
  apply setFirstActor_ne
  · rw [hact4]; exact hny
  · rw [hact4]; exact hlx

lemma ite_handCount_progress_showdown (t : GameState) (pid : Nat)
    (deck : List Card) (u : GameState)
    (hdupu : u.histories.any
      (fun h => h.handNumber == u.game.handCount + 1) = false)
    (hneu : activeSeats u ≠ [])
    (hct : u.game.handCount = t.game.handCount) :
    t.game.handCount
        < (if (showdown deck u).game.phase = some Phase.SHOWDOWN then
             showdown deck u
           else setFirstActorAfterDealer (showdown deck u)).game.handCount ∨
      (if (showdown deck u).game.phase = some Phase.SHOWDOWN then
         showdown deck u
       else setFirstActorAfterDealer
         (showdown deck u)).game.currentPlayer ≠ some pid := by
  left
  have h := showdown_handCount_progress deck u t.game.handCount hdupu hneu hct
  split
  · exact h
  · rw [setFirstActor_handCount]; exact h

lemma moveToNextPhase_progress (deck : List Card) (t : GameState) (pid : Nat)
    (hph : t.game.phase ≠ some Phase.SHOWDOWN)
    (hdup : t.histories.any
      (fun h => h.handNumber == t.game.handCount + 1) = false)
    (hlen : 1 ≤ (activeSeats t).length)
    (hnot : ∀ q ∈ activeSeats t, q.pid ≠ pid) :
    t.game.handCount < (moveToNextPhase deck t).game.handCount ∨
      (moveToNextPhase deck t).game.currentPlayer ≠ some pid := by
  have hne1 : activeSeats (collectBetsToPot t) ≠ [] := by
    apply List.length_pos.mp
    rw [activeSeats_collect_length]
    omega
  have hny : ∀ q ∈ activeSeats (resetActiveBets (collectBetsToPot t)),
      q.pid ≠ pid := by
    intro q hq
    have h1 : q.pid ∈ (activeSeats
        (resetActiveBets (collectBetsToPot t))).map (fun r => r.pid) :=
      List.mem_map_of_mem _ hq
    rw [activeSeats_reset_pid, activeSeats_collect_pid] at h1
    rcases List.mem_map.mp h1 with ⟨q0, hq0, he⟩
    rw [← he]
    exact hnot q0 hq0
  have hlx : activeSeats (resetActiveBets (collectBetsToPot t)) ≠ [] := by
    apply List.length_pos.mp
    rw [activeSeats_reset_length, activeSeats_collect_length]
    omega
  simp only [moveToNextPhase]
  by_cases hn : (activeSeats t).length = 1
  · rw [if_pos hn]
    left
    refine showdown_handCount_progress deck _ _ ?_ ?_ rfl
    · exact hdup
    · exact hne1
  · rw [if_neg hn]
    rw [show (resetActiveBets (collectBetsToPot t)).game.phase = t.game.phase
      from rfl]
    rcases hphase : t.game.phase with _ | ph
    · right
      exact ite_actor_progress t _ pid (by simp) rfl hny hlx
    · cases ph with
      | PREFLOP =>
          right
          exact ite_actor_progress t _ pid (by simp) rfl hny hlx
      | FLOP =>
          right
          exact ite_actor_progress t _ pid (by simp) rfl hny hlx
      | TURN =>
          right
          exact ite_actor_progress t _ pid (by simp) rfl hny hlx
      | RIVER =>
          refine ite_handCount_progress_showdown t pid deck _ ?_ ?_ rfl
          · exact hdup
          · exact hlx
      | SHOWDOWN => exact absurd hphase hph
      | WAITING_FOR_PLAYERS =>
          right
          exact ite_actor_progress t _ pid (by simp) rfl hny hlx

lemma advance_after_fold_progress (deck : List Card) (t : GameState)
    (pid : Nat) (C : Nat)
    (hg : t.game.currentPlayer = some pid)
    (hph : t.game.phase ≠ some Phase.SHOWDOWN)
    (hdup : t.histories.any
      (fun h => h.handNumber == t.game.handCount + 1) = false)
    (hlen : 1 ≤ (activeSeats t).length)
    (hnot : ∀ q ∈ activeSeats t, q.pid ≠ pid)
    (hct : t.game.handCount = C) :
    C < (advanceGame deck t).game.handCount ∨
      (advanceGame deck t).game.currentPlayer ≠ some pid := by
  subst hct
  simp only [advanceGame]
  by_cases h1 : (activeSeats t).length = 1
  · rw [if_pos h1]
    exact moveToNextPhase_progress deck t pid hph hdup hlen hnot
  · rw [if_neg h1]
    by_cases hcomp : isBettingRoundComplete t (activeSeats t) = true
    · rw [if_pos hcomp]
      exact moveToNextPhase_progress deck t pid hph hdup hlen hnot
    · rw [if_neg hcomp]
      right
      have hfi : (activeSeats t).findIdx?
          (fun q => t.game.currentPlayer == some q.pid) = none := by
        rw [List.findIdx?_eq_none_iff]
        intro x hx
        rw [hg]
        exact beq_eq_false_iff_ne.mpr
          (fun hc => hnot x hx (Option.some.inj hc).symm)
      rw [hfi]
      split
      · rename_i i hfix
        simp at hfix
      · split
        · rename_i cur hf2
          split
          · rename_i nxt hf3
            intro hc
            exact hnot nxt (List.mem_of_find?_eq_some hf3) (Option.some.inj hc)
          · rename_i hf3
            split
            · rename_i nxt tail hA
              intro hc
              have hnmem : nxt ∈ activeSeats t := by
                rw [hA]; exact List.mem_cons_self _ _
              exact hnot nxt hnmem (Option.some.inj hc)
            · rename_i hA
              rw [hA] at hlen
              simp at hlen
        · rename_i hf2
          split
          · rename_i nxt tail hA
            intro hc
            have hnmem : nxt ∈ activeSeats t := by
              rw [hA]; exact List.mem_cons_self _ _
            exact hnot nxt hnmem (Option.some.inj hc)
          · rename_i hA
            rw [hA] at hlen
            simp at hlen

/-- Witness for C8: in the concrete fold-out state the remaining seat's
stack is credited the pot 5, the pot is zeroed, the phase becomes
WAITING_FOR_PLAYERS and the history row carries pot 5. -/
theorem C8_single_winner_foldout_witness :
    (seatAt (showdown exDeck exFoldOut) 1).map (·.stack)
      = (seatAt exFoldOut 1).map (fun p => p.stack + exFoldOut.game.pot) ∧
    (showdown exDeck exFoldOut).game.pot = 0 := by
  have h := C8_single_winner_foldout exDeck exFoldOut
    (mkSeat 2 1 97 0 3 true) (by with_unfolding_all decide)
    (by with_unfolding_all decide) (mkSeat 1 0 98 0 2 false)
    (by with_unfolding_all decide) (by with_unfolding_all decide)
    (by with_unfolding_all decide) (by with_unfolding_all decide)
    (by with_unfolding_all decide)
  exact ⟨h.1, h.2.1⟩

/-- C9 (amended): bot stall recovery.  When the stuck current actor (a seat
with chips, so FOLD is in its valid-action list) is processed by
`_handle_bot_action_failure`, the fallback applies the first currently
legal action in priority order FOLD, CHECK, CALL — here FOLD — through the
regular `process_action` path, and afterwards the game is not stalled on
that player: either the hand has ended (the hand count increased because a
hand-history row was written, possibly with a next hand auto-started) or
the game's current actor is a different player.  The claim's stronger
"current actor is a different seat afterwards" is refuted by
`C9_counterexample`. -/
theorem C9_bot_stall_recovery (deck : List Card) (s : GameState) (pid : Nat)
    (p : Seat)
    (hstatus : s.game.status = GStatus.PLAYING)
    (hcp : s.game.currentPlayer = some pid)
    (hfind : findSeatPid s pid = some p)
    (hstack : 0 < p.stack)
    (hpid : (s.seats.map (·.pid)).Nodup)
    (hpos : (s.seats.map (·.pos)).Nodup)
    (hph : s.game.phase ≠ some Phase.SHOWDOWN)
    (hdup : s.histories.any
      (fun h => h.handNumber == s.game.handCount + 1) = false)
    (hact2 : 2 ≤ (activeSeats s).length) :
    handleBotActionFailure deck s
      = (processActionF deck s pid ActionType.FOLD 0).2 ∧
    (s.game.handCount < (handleBotActionFailure deck s).game.handCount ∨
      (handleBotActionFailure deck s).game.currentPlayer ≠ some pid) := by
  have hva : (getValidActions s p).contains ActionType.FOLD = true := by
    simp only [getValidActions]
    rw [if_pos hstack]
    simp
  have hcore : processActionCore s pid ActionType.FOLD 0
      = (none, recordAction (handleFold s p) pid ActionType.FOLD 0) := by
    simp only [processActionCore]
    rw [if_neg (by simp [hstatus]), if_neg (by simp [hcp])]
    simp only [hfind]
  have hpf : processActionF deck s pid ActionType.FOLD 0
      = (none,
         advanceGame deck
           (recordAction (handleFold s p) pid ActionType.FOLD 0)) := by
    simp only [processActionF, hcore]
  have hred : handleBotActionFailure deck s
      = advanceGame deck
          (recordAction (handleFold s p) pid ActionType.FOLD 0) := by
    simp only [handleBotActionFailure, hcp]
    rw [if_neg (by simp [hstatus])]
    simp only [hfind]
    rw [if_pos hva]
    simp only [hpf]
  have hga := filter_updateFirstSeat_length_ge p.pos
    (fun q => { q with isActive := false })
    (fun q => q.isActive && !q.cashedOut) s.seats
  have hlenA : 1 ≤ (activeSeats
      (recordAction (handleFold s p) pid ActionType.FOLD 0)).length := by
    simp only [activeSeats] at hact2 ⊢
    simp only [recordAction, handleFold, updateSeat]
    omega
  have hpmem : p ∈ s.seats := List.mem_of_find?_eq_some hfind
  have hppred := List.find?_some hfind
  have hppid : p.pid = pid := by
    simp only [Bool.and_eq_true, beq_iff_eq] at hppred
    exact hppred.1.1
  have hpact : p.isActive = true := by
    simp only [Bool.and_eq_true, beq_iff_eq] at hppred
    exact hppred.1.2
  have hnotA : ∀ q ∈ activeSeats
      (recordAction (handleFold s p) pid ActionType.FOLD 0), q.pid ≠ pid := by
    intro q hq
    simp only [activeSeats, recordAction, handleFold, updateSeat] at hq
    obtain ⟨hqm, hqpr⟩ := List.mem_filter.mp hq
    intro hqpid
    rcases mem_updateFirstSeat_elim p.pos _ s.seats q hqm with
      hmem | ⟨r, hr, hrpos, hqr⟩
    · have hqp : q = p := List.inj_on_of_nodup_map hpid hmem hpmem
        (by rw [hqpid, hppid])
      have hpq := mem_updateFirstSeat_pos_eq p.pos
        (fun r => { r with isActive := false }) s.seats hpos p p
        (hqp ▸ hqm) rfl hpmem rfl
      have hfalse : p.isActive = false := by rw [hpq]
      rw [hfalse] at hpact
      exact Bool.noConfusion hpact
    · rw [hqr] at hqpr
      simp at hqpr
  constructor
  · rw [hred, hpf]
  · rw [hred]
    refine advance_after_fold_progress deck _ pid _ ?_ ?_ ?_ hlenA hnotA rfl
    · exact hcp
    · exact hph
    · exact hdup

/-- Witness for C9: in the concrete heads-up bot-stall state the fallback
result equals the FOLD-processed result, and the hand count increased (the
stuck bot's hand was ended by the fallback fold). -/
theorem C9_bot_stall_recovery_witness :
    handleBotActionFailure exDeck exBotStuck
      = (processActionF exDeck exBotStuck 1 ActionType.FOLD 0).2 ∧
    (exBotStuck.game.handCount
        < (handleBotActionFailure exDeck exBotStuck).game.handCount ∨
      (handleBotActionFailure exDeck exBotStuck).game.currentPlayer
        ≠ some 1) :=
  C9_bot_stall_recovery exDeck exBotStuck 1
    { mkSeat 1 0 100 2 2 true with isBot := true }
    (by with_unfolding_all decide) (by with_unfolding_all decide)
    (by with_unfolding_all decide) (by with_unfolding_all decide)
    (by with_unfolding_all decide) (by with_unfolding_all decide)
    (by with_unfolding_all decide) (by with_unfolding_all decide)
    (by with_unfolding_all decide)

/-- C9 counterexample: in the heads-up state whose current actor is the
stuck bot (pid 1), the fallback fold is really applied — the bot's seat
becomes inactive, the hand count increases and a history row numbered 1 is
written — yet the game's current actor afterwards is still pid 1, not a
different seat: the claim's "afterwards the current actor is a different
seat" is false (the showdown path never reassigns `current_player`). -/
theorem C9_counterexample :
    exBotStuck.game.currentPlayer = some 1 ∧
    (handleBotActionFailure exDeck exBotStuck).seats.map
        (fun q => (q.pid, q.isActive)) = [(1, false), (2, true)] ∧
    (handleBotActionFailure exDeck exBotStuck).game.handCount
      = exBotStuck.game.handCount + 1 ∧
    (handleBotActionFailure exDeck exBotStuck).histories.map
        (fun h => h.handNumber) = [1] ∧
    (handleBotActionFailure exDeck exBotStuck).game.currentPlayer
      = some 1 := by
  with_unfolding_all decide

end PokerModel
